import Mathlib

/-!
# LibVMI Xen driver: PFN to MFN translation and page-granular writes

A shallow embedding of `xen_get_memory_mfn`, `xen_get_memory`,
`xen_release_memory`, `xen_pfn_to_mfn`, `xen_put_memory` and `xen_write` from
`src/libvmi/driver/xen.c`.  Each C function is a Lean function from the
session state before the call (instance and host) to the result and the
session state after it.

The hypervisor library (`xc_map_foreign_range`, `xc_map_foreign_batch`,
`munmap`) is an external collaborator.  It is modelled by

* `Host.bytes`: the machine memory, one byte per (machine frame, offset);
* an outcome function `ok : Nat → List Nat → Bool` telling whether the map
  attempt number `i` of the session, asking for the listed frames, succeeds;
* `Host.log`: the chronological record of every call made to the library and
  of every `memcpy` into a mapped frame.

A pointer returned by a map call is modelled by the list of machine frames
that back it (`Mapping`), `NULL` by `none`.

Declarations that live in headers outside `src/` (the widths of `addr_t` and
`unsigned long`, the macro `fpp`, `XC_PAGE_SIZE`, the layout of
`shared_info_t`) are the fields of `Platform`.  `size_t` is taken to be at
least 32 bits wide, so that `buf_offset` and `write_len`, which never exceed
the 32-bit `count`, are plain naturals.
-/

namespace Xen

/-- Result codes of the driver interface. -/
inductive status_t where
  | VMI_SUCCESS
  | VMI_FAILURE
  deriving DecidableEq

/-- Access modes passed to the map calls. -/
inductive prot_t where
  | PROT_READ
  | PROT_WRITE
  deriving DecidableEq

/-- Header-level constants and types used by `xen.c` but declared elsewhere. -/
structure Platform where
  /-- width in bits of `addr_t` -/
  addr_bits : Nat
  /-- width in bits of `unsigned long` -/
  long_bits : Nat
  /-- the macro `fpp` -/
  fpp : Nat
  /-- the constant `XC_PAGE_SIZE` -/
  XC_PAGE_SIZE : Nat
  /-- number of `unsigned long` cells in one mapped page -/
  longs_per_page : Nat
  /-- value of cell `i` of a page seen as `unsigned long[]` -/
  read_long : (Nat → Nat) → Nat → Nat
  /-- field `arch.max_pfn` of a page seen as `shared_info_t` -/
  max_pfn : (Nat → Nat) → Nat
  /-- field `arch.pfn_to_mfn_frame_list_list` of a page seen as `shared_info_t` -/
  pfn_to_mfn_frame_list_list : (Nat → Nat) → Nat

/-- A non-NULL pointer obtained from a map call: the frames behind it. -/
abbrev Mapping := List Nat

/-- One interaction with the host. -/
inductive HostCall where
  /-- `xc_map_foreign_range` of one frame, with its outcome -/
  | map_range (prot : prot_t) (mfn : Nat) (success : Bool)
  /-- `xc_map_foreign_batch` of the listed frames, with its outcome -/
  | map_batch (prot : prot_t) (frames : List Nat) (success : Bool)
  /-- `munmap` of a mapping -/
  | munmap (memory : Mapping) (length : Nat)
  /-- `memcpy` of `len` bytes from `buf + buf_offset` to offset `offset` of a mapped frame -/
  | memcpy (mfn : Nat) (offset : Nat) (buf_offset : Nat) (len : Nat)
  deriving DecidableEq

/-- The host side of a session. -/
structure Host where
  /-- machine memory: frame number, then byte offset -/
  bytes : Nat → Nat → Nat
  /-- number of map attempts made so far -/
  attempts : Nat
  /-- every host call so far, oldest first -/
  log : List HostCall

/-- The struct `xen_instance_t` (fields used by the translation). -/
structure xen_instance where
  hvm : Int
  shared_info_frame : Nat
  live_pfn_to_mfn_table : Option Mapping
  nr_pfns : Nat

/-- The struct behind `vmi_instance_t` (fields used by the driver). -/
structure vmi_instance where
  page_shift : Nat
  page_size : Nat
  driver : xen_instance

/-- Function `xen_get_memory_mfn`: map one frame with `xc_map_foreign_range`.
The result is `NULL` exactly when the host refuses the attempt. -/
def xen_get_memory_mfn (ok : Nat → List Nat → Bool) (h : Host) (mfn : Nat) (prot : prot_t) :
    Option Mapping × Host :=
  let success := ok h.attempts [mfn]
  (if success then some [mfn] else none,
   { h with attempts := h.attempts + 1, log := h.log ++ [HostCall.map_range prot mfn success] })

/-- The call `xc_map_foreign_batch (…, prot, arr, num)` with `arr[0..num)` = `frames`.
The page count is passed as computed by the caller: the conversion to the
parameter type of the library function is outside `xen.c`. -/
def xc_map_foreign_batch (ok : Nat → List Nat → Bool) (h : Host) (prot : prot_t)
    (frames : List Nat) : Option Mapping × Host :=
  let success := ok h.attempts frames
  (if success then some frames else none,
   { h with attempts := h.attempts + 1, log := h.log ++ [HostCall.map_batch prot frames success] })

/-- Function `xen_release_memory`: `munmap (memory, length)`. -/
def xen_release_memory (h : Host) (memory : Mapping) (length : Nat) : Host :=
  { h with log := h.log ++ [HostCall.munmap memory length] }

/-- Cell `i` of a mapping read as `unsigned long[]`.  An index past the mapped
pages has no defined value in C; the model reads 0 there. -/
def read_ulong (P : Platform) (bytes : Nat → Nat → Nat) (m : Mapping) (i : Nat) : Nat :=
  match m.get? (i / P.longs_per_page) with
  | some frame => P.read_long (bytes frame) (i % P.longs_per_page) % 2 ^ P.long_bits
  | none => 0

/-- The first `num` cells of a mapping read as an array of frame numbers. -/
def read_frames (P : Platform) (bytes : Nat → Nat → Nat) (m : Mapping) (num : Nat) :
    List Nat :=
  (List.range num).map (read_ulong P bytes m)

/-- The expression `(nr_pfns+(fpp*fpp)-1)/(fpp*fpp)` in `unsigned long` arithmetic. -/
def frame_list_pages (P : Platform) (nr_pfns : Nat) : Nat :=
  ((nr_pfns + (P.fpp * P.fpp) % 2 ^ P.long_bits + (2 ^ P.long_bits - 1)) % 2 ^ P.long_bits)
    / ((P.fpp * P.fpp) % 2 ^ P.long_bits)

/-- The expression `(nr_pfns+fpp-1)/fpp` in `unsigned long` arithmetic. -/
def table_pages (P : Platform) (nr_pfns : Nat) : Nat :=
  ((nr_pfns + P.fpp % 2 ^ P.long_bits + (2 ^ P.long_bits - 1)) % 2 ^ P.long_bits)
    / (P.fpp % 2 ^ P.long_bits)

/-- The label `error_exit` of `xen_pfn_to_mfn`: release what is not NULL. -/
def error_exit (P : Platform) (h : Host)
    (live_shinfo live_pfn_to_mfn_frame_list_list live_pfn_to_mfn_frame_list : Option Mapping) :
    Host :=
  let h1 := match live_shinfo with
    | some m => xen_release_memory h m P.XC_PAGE_SIZE
    | none => h
  let h2 := match live_pfn_to_mfn_frame_list_list with
    | some m => xen_release_memory h1 m P.XC_PAGE_SIZE
    | none => h1
  match live_pfn_to_mfn_frame_list with
  | some m => xen_release_memory h2 m P.XC_PAGE_SIZE
  | none => h2

/-- Function `xen_pfn_to_mfn`: returns the value, the instance and the host.
`pfn` is an `unsigned long`; frame numbers handed to `xen_get_memory_mfn` are
converted to `addr_t`.  Every path but the first `return` goes through
`error_exit`, `ret` being 0 unless the table was read. -/
def xen_pfn_to_mfn (P : Platform) (ok : Nat → List Nat → Bool) (vmi : vmi_instance) (h : Host)
    (pfn : Nat) : Nat × vmi_instance × Host :=
  if vmi.driver.hvm ≠ 0 then (pfn, vmi, h)
  else
    match vmi.driver.live_pfn_to_mfn_table with
    | some table => (read_ulong P h.bytes table pfn, vmi, error_exit P h none none none)
    | none =>
      match xen_get_memory_mfn ok h (vmi.driver.shared_info_frame % 2 ^ P.addr_bits)
          prot_t.PROT_READ with
      | (none, h1) => (0, vmi, error_exit P h1 none none none)
      | (some live_shinfo, h1) =>
        let shinfo_page := h1.bytes (live_shinfo.headD 0)
        let nr_pfns := P.max_pfn shinfo_page % 2 ^ P.long_bits
        match xen_get_memory_mfn ok h1
            (P.pfn_to_mfn_frame_list_list shinfo_page % 2 ^ P.addr_bits) prot_t.PROT_READ with
        | (none, h2) => (0, vmi, error_exit P h2 (some live_shinfo) none none)
        | (some fll, h2) =>
          match xc_map_foreign_batch ok h2 prot_t.PROT_READ
              (read_frames P h2.bytes fll (frame_list_pages P nr_pfns)) with
          | (none, h3) => (0, vmi, error_exit P h3 (some live_shinfo) (some fll) none)
          | (some fl, h3) =>
            match xc_map_foreign_batch ok h3 prot_t.PROT_READ
                (read_frames P h3.bytes fl (table_pages P nr_pfns)) with
            | (none, h4) => (0, vmi, error_exit P h4 (some live_shinfo) (some fll) (some fl))
            | (some table, h4) =>
              let vmi1 := { vmi with driver :=
                { vmi.driver with live_pfn_to_mfn_table := some table, nr_pfns := nr_pfns } }
              (read_ulong P h4.bytes table pfn, vmi1,
               error_exit P h4 (some live_shinfo) (some fll) (some fl))

/-- The `memcpy (memory + offset, buf + buf_offset, write_len)` of `xen_put_memory`,
`memory` being the mapping of frame `mfn`.  When `offset + write_len` stays
within the page (always so unless `offset + count` wraps) the bytes land in
that frame; offsets past the page stand for what lies behind the mapping. -/
def memcpy_to_frame (h : Host) (mfn offset : Nat) (buf : Nat → Nat) (buf_offset write_len : Nat) :
    Host :=
  { h with
    bytes := fun f o =>
      if f = mfn ∧ offset ≤ o ∧ o < offset + write_len then buf (buf_offset + (o - offset))
      else h.bytes f o
    log := h.log ++ [HostCall.memcpy mfn offset buf_offset write_len] }

/-- The `while (count > 0)` loop of `xen_put_memory`; `fuel` bounds the number
of iterations and `none` is returned when it runs out.

Integer conversions: `phys_address`, `pfn`, `mfn` and `offset` are `addr_t`;
the argument of `xen_pfn_to_mfn` is converted to `unsigned long` and its
result back to `addr_t`; `offset + count` is computed in the wider of `addr_t`
and the 32-bit type of `count`; `count -= write_len` is reduced to 32 bits.
`page_size` is taken to be at least 1, so that `page_size - 1` does not
wrap. -/
def xen_put_memory_loop (P : Platform) (ok : Nat → List Nat → Bool) (paddr : Nat)
    (buf : Nat → Nat) :
    Nat → vmi_instance → Host → Nat → Nat → Option status_t × vmi_instance × Host
  | 0, vmi, h, count, _ =>
    (if count > 0 then none else some status_t.VMI_SUCCESS, vmi, h)
  | fuel + 1, vmi, h, count, buf_offset =>
    if count > 0 then
      let phys_address := (paddr + buf_offset) % 2 ^ P.addr_bits
      let pfn := phys_address >>> vmi.page_shift
      let r := xen_pfn_to_mfn P ok vmi h (pfn % 2 ^ P.long_bits)
      let mfn := r.1 % 2 ^ P.addr_bits
      let offset := (vmi.page_size - 1) &&& phys_address
      match xen_get_memory_mfn ok r.2.2 mfn prot_t.PROT_WRITE with
      | (none, h2) => (some status_t.VMI_FAILURE, r.2.1, h2)
      | (some memory, h2) =>
        let write_len :=
          if (offset + count) % 2 ^ (max P.addr_bits 32) > vmi.page_size
          then vmi.page_size - offset else count
        let h3 := memcpy_to_frame h2 (memory.headD 0) offset buf buf_offset write_len
        let count1 := (count + (2 ^ 32 - write_len % 2 ^ 32)) % 2 ^ 32
        let h4 := xen_release_memory h3 memory vmi.page_size
        xen_put_memory_loop P ok paddr buf fuel r.2.1 h4 count1 (buf_offset + write_len)
    else (some status_t.VMI_SUCCESS, vmi, h)

/-- Function `xen_put_memory`.  Every iteration lowers `count`, so `count`
iterations are enough (theorem `xen_put_memory_loop_terminates`). -/
def xen_put_memory (P : Platform) (ok : Nat → List Nat → Bool) (vmi : vmi_instance) (h : Host)
    (paddr count : Nat) (buf : Nat → Nat) : Option status_t × vmi_instance × Host :=
  xen_put_memory_loop P ok paddr buf count vmi h count 0

/-- The value of `phys_address` in the iteration that starts at `buf_offset`. -/
def chunk_phys (P : Platform) (paddr buf_offset : Nat) : Nat :=
  (paddr + buf_offset) % 2 ^ P.addr_bits

/-- The value of `pfn` in that iteration, as passed to `xen_pfn_to_mfn`. -/
def chunk_pfn (P : Platform) (vmi : vmi_instance) (paddr buf_offset : Nat) : Nat :=
  (chunk_phys P paddr buf_offset >>> vmi.page_shift) % 2 ^ P.long_bits

/-- The value of `offset` in that iteration. -/
def chunk_offset (P : Platform) (vmi : vmi_instance) (paddr buf_offset : Nat) : Nat :=
  (vmi.page_size - 1) &&& chunk_phys P paddr buf_offset

/-- The value of `write_len` in that iteration. -/
def chunk_len (P : Platform) (vmi : vmi_instance) (paddr buf_offset count : Nat) : Nat :=
  if (chunk_offset P vmi paddr buf_offset + count) % 2 ^ (max P.addr_bits 32) > vmi.page_size
  then vmi.page_size - chunk_offset P vmi paddr buf_offset else count

/-- The value of `count` after `count -= write_len`. -/
def next_count (count write_len : Nat) : Nat :=
  (count + (2 ^ 32 - write_len % 2 ^ 32)) % 2 ^ 32

/-- The host after an iteration whose map call succeeded: frame `mfn` was
mapped, `write_len` bytes were copied to its offset `offset`, it was released. -/
def after_chunk (h : Host) (mfn offset : Nat) (buf : Nat → Nat)
    (buf_offset write_len page_size : Nat) : Host :=
  { bytes := fun f o =>
      if f = mfn ∧ offset ≤ o ∧ o < offset + write_len then buf (buf_offset + (o - offset))
      else h.bytes f o
    attempts := h.attempts + 1
    log := h.log ++ [HostCall.map_range prot_t.PROT_WRITE mfn true,
                     HostCall.memcpy mfn offset buf_offset write_len,
                     HostCall.munmap [mfn] page_size] }

/-- A run of consecutive `xen_pfn_to_mfn` calls, one per listed PFN; returns the
instance and host after the last one. -/
def xen_pfn_to_mfn_each (P : Platform) (ok : Nat → List Nat → Bool) :
    List Nat → vmi_instance → Host → vmi_instance × Host
  | [], vmi, h => (vmi, h)
  | pfn :: rest, vmi, h =>
    xen_pfn_to_mfn_each P ok rest (xen_pfn_to_mfn P ok vmi h pfn).2.1
      (xen_pfn_to_mfn P ok vmi h pfn).2.2

/-- A call made by a client of the driver. -/
inductive DriverCall where
  | put_memory (paddr count : Nat) (buf : Nat → Nat)
  | pfn_to_mfn (pfn : Nat)

/-- A sequence of driver calls run one after the other on a session. -/
def run_calls (P : Platform) (ok : Nat → List Nat → Bool) :
    List DriverCall → vmi_instance → Host → vmi_instance × Host
  | [], vmi, h => (vmi, h)
  | DriverCall.put_memory paddr count buf :: rest, vmi, h =>
    run_calls P ok rest (xen_put_memory P ok vmi h paddr count buf).2.1
      (xen_put_memory P ok vmi h paddr count buf).2.2
  | DriverCall.pfn_to_mfn pfn :: rest, vmi, h =>
    run_calls P ok rest (xen_pfn_to_mfn P ok vmi h pfn).2.1 (xen_pfn_to_mfn P ok vmi h pfn).2.2

/-! ### What the table construction reads from guest memory -/

/-- The frame mapped as shared-info page. -/
def shinfo_mfn (P : Platform) (vmi : vmi_instance) : Nat :=
  vmi.driver.shared_info_frame % 2 ^ P.addr_bits

/-- The guest frame count `live_shinfo->arch.max_pfn`. -/
def guest_nr_pfns (P : Platform) (vmi : vmi_instance) (h : Host) : Nat :=
  P.max_pfn (h.bytes (shinfo_mfn P vmi)) % 2 ^ P.long_bits

/-- The frame mapped as frame-list-list page. -/
def fll_mfn (P : Platform) (vmi : vmi_instance) (h : Host) : Nat :=
  P.pfn_to_mfn_frame_list_list (h.bytes (shinfo_mfn P vmi)) % 2 ^ P.addr_bits

/-- The frames asked for by the first batch call (the frame-list pages). -/
def frame_list_frames (P : Platform) (vmi : vmi_instance) (h : Host) : List Nat :=
  read_frames P h.bytes [fll_mfn P vmi h] (frame_list_pages P (guest_nr_pfns P vmi h))

/-- The frames asked for by the second batch call (the table pages). -/
def table_frames (P : Platform) (vmi : vmi_instance) (h : Host) : List Nat :=
  read_frames P h.bytes (frame_list_frames P vmi h) (table_pages P (guest_nr_pfns P vmi h))

/-- The instance after a successful table construction. -/
def with_table (P : Platform) (vmi : vmi_instance) (h : Host) : vmi_instance :=
  { vmi with driver :=
    { vmi.driver with live_pfn_to_mfn_table := some (table_frames P vmi h),
                      nr_pfns := guest_nr_pfns P vmi h } }

/-- The host after `calls` more host calls, `n` of them map attempts, none of
them a copy. -/
def after_calls (h : Host) (n : Nat) (calls : List HostCall) : Host :=
  { bytes := h.bytes, attempts := h.attempts + n, log := h.log ++ calls }

/-! ### Reading the host log -/

/-- The host calls made between host state `h0` and the later state `h`. -/
def new_calls (h0 h : Host) : List HostCall :=
  h.log.drop h0.log.length

/-- A map call (of either kind) that failed. -/
def is_failed_map : HostCall → Bool
  | HostCall.map_range _ _ false => true
  | HostCall.map_batch _ _ false => true
  | _ => false

/-- A map call (of either kind) that succeeded. -/
def is_successful_map : HostCall → Bool
  | HostCall.map_range _ _ true => true
  | HostCall.map_batch _ _ true => true
  | _ => false

/-- A release call. -/
def is_munmap : HostCall → Bool
  | HostCall.munmap _ _ => true
  | _ => false

/-- The single-frame read-write map call that `xen_put_memory` makes for a chunk. -/
def is_chunk_map : HostCall → Bool
  | HostCall.map_range prot_t.PROT_WRITE _ _ => true
  | _ => false

/-- A chunk map call that failed. -/
def is_failed_chunk_map : HostCall → Bool
  | HostCall.map_range prot_t.PROT_WRITE _ false => true
  | _ => false

/-- A copy into a mapped frame. -/
def is_memcpy : HostCall → Bool
  | HostCall.memcpy _ _ _ _ => true
  | _ => false

/-- The mappings obtained by the successful map calls of a log, oldest first. -/
def obtained_mappings : List HostCall → List Mapping
  | [] => []
  | HostCall.map_range _ mfn true :: l => [mfn] :: obtained_mappings l
  | HostCall.map_batch _ frames true :: l => frames :: obtained_mappings l
  | _ :: l => obtained_mappings l

/-- The mappings released by the release calls of a log, oldest first. -/
def released_mappings : List HostCall → List Mapping
  | [] => []
  | HostCall.munmap m _ :: l => m :: released_mappings l
  | _ :: l => released_mappings l

/-- Machine memory after the copies recorded in a log are applied, in order,
to `bytes`, the source buffer being `buf`. -/
def replay_memcpy (buf : Nat → Nat) : List HostCall → (Nat → Nat → Nat) → Nat → Nat → Nat
  | [], bytes => bytes
  | HostCall.memcpy mfn offset buf_offset len :: l, bytes =>
    replay_memcpy buf l (fun f o =>
      if f = mfn ∧ offset ≤ o ∧ o < offset + len then buf (buf_offset + (o - offset))
      else bytes f o)
  | _ :: l, bytes => replay_memcpy buf l bytes

/-- The quotient `n / d` rounded up. -/
def ceil_div (n d : Nat) : Nat :=
  (n + d - 1) / d

/-! ### Concrete sessions used as test inputs -/

/-- Little-endian value of the `n` bytes at offset `o` of a page. -/
def le_value (page : Nat → Nat) (o : Nat) : Nat → Nat
  | 0 => 0
  | n + 1 => page o % 256 + 256 * le_value page (o + 1) n

/-- A 64-bit little-endian platform: 8-byte `unsigned long` and `addr_t`,
4096-byte pages, 512 entries per page, `arch.max_pfn` at byte 3088 and
`arch.pfn_to_mfn_frame_list_list` at byte 3096 of the shared-info page. -/
def x86_64 : Platform where
  addr_bits := 64
  long_bits := 64
  fpp := 512
  XC_PAGE_SIZE := 4096
  longs_per_page := 512
  read_long := fun page i => le_value page (8 * i) 8
  max_pfn := fun page => le_value page 3088 8
  pfn_to_mfn_frame_list_list := fun page => le_value page 3096 8

/-- A host at session start: nothing mapped yet. -/
def fresh_host (bytes : Nat → Nat → Nat) : Host :=
  { bytes := bytes, attempts := 0, log := [] }

/-- An instance at session start: table `NULL` and frame count 0, as `xen_init`
sets them, with 4096-byte pages. -/
def init_instance (hvm : Int) (shared_info_frame : Nat) : vmi_instance :=
  { page_shift := 12, page_size := 4096,
    driver := { hvm := hvm, shared_info_frame := shared_info_frame,
                live_pfn_to_mfn_table := none, nr_pfns := 0 } }

/-- Memory of a small paravirtualized guest: shared info in frame 1 announces
2 guest frames and the frame-list-list in frame 2, which names frame 3 as
frame list, which names frame 4 as table page; the table sends both PFN 0 and
PFN 1 to machine frame 7.  All other bytes are 0. -/
def aliasing_guest : Nat → Nat → Nat := fun f o =>
  if f = 1 ∧ o = 3088 then 2
  else if f = 1 ∧ o = 3096 then 2
  else if f = 2 ∧ o = 0 then 3
  else if f = 3 ∧ o = 0 then 4
  else if f = 4 ∧ o = 0 then 7
  else if f = 4 ∧ o = 8 then 7
  else 0

/-- Memory of a guest whose shared info (frame 1) announces `2^64 - 1` guest
frames; all other bytes are 0. -/
def huge_guest : Nat → Nat → Nat := fun f o =>
  if f = 1 ∧ 3088 ≤ o ∧ o < 3096 then 255 else 0

/-- Every map attempt succeeds. -/
def always_ok : Nat → List Nat → Bool := fun _ _ => true

/-- Frame `bad` cannot be mapped on its own; every other request succeeds. -/
def all_but (bad : Nat) : Nat → List Nat → Bool := fun _ frames => decide (frames ≠ [bad])

/-! ## Lemmas -/

theorem loop_count_zero (P : Platform) (ok : Nat → List Nat → Bool) (paddr : Nat)
    (buf : Nat → Nat) (fuel : Nat) (vmi : vmi_instance) (h : Host) (buf_offset : Nat) :
    xen_put_memory_loop P ok paddr buf fuel vmi h 0 buf_offset
      = (some status_t.VMI_SUCCESS, vmi, h) := by
  cases fuel <;> simp [xen_put_memory_loop]

theorem loop_no_fuel (P : Platform) (ok : Nat → List Nat → Bool) (paddr : Nat)
    (buf : Nat → Nat) (vmi : vmi_instance) (h : Host) (count buf_offset : Nat)
    (hc : 0 < count) :
    xen_put_memory_loop P ok paddr buf 0 vmi h count buf_offset = (none, vmi, h) := by
  simp [xen_put_memory_loop, hc]

/-- One iteration of the loop, written with the named quantities. -/
theorem loop_step (P : Platform) (ok : Nat → List Nat → Bool) (paddr : Nat)
    (buf : Nat → Nat) (fuel : Nat) (vmi : vmi_instance) (h : Host) (count buf_offset : Nat)
    (hc : 0 < count) :
    xen_put_memory_loop P ok paddr buf (fuel + 1) vmi h count buf_offset =
      if ok (xen_pfn_to_mfn P ok vmi h (chunk_pfn P vmi paddr buf_offset)).2.2.attempts
          [(xen_pfn_to_mfn P ok vmi h (chunk_pfn P vmi paddr buf_offset)).1 % 2 ^ P.addr_bits]
          = true then
        xen_put_memory_loop P ok paddr buf fuel
          (xen_pfn_to_mfn P ok vmi h (chunk_pfn P vmi paddr buf_offset)).2.1
          (after_chunk (xen_pfn_to_mfn P ok vmi h (chunk_pfn P vmi paddr buf_offset)).2.2
            ((xen_pfn_to_mfn P ok vmi h (chunk_pfn P vmi paddr buf_offset)).1 % 2 ^ P.addr_bits)
            (chunk_offset P vmi paddr buf_offset) buf buf_offset
            (chunk_len P vmi paddr buf_offset count) vmi.page_size)
          (next_count count (chunk_len P vmi paddr buf_offset count))
          (buf_offset + chunk_len P vmi paddr buf_offset count)
      else
        (some status_t.VMI_FAILURE,
         (xen_pfn_to_mfn P ok vmi h (chunk_pfn P vmi paddr buf_offset)).2.1,
         after_calls (xen_pfn_to_mfn P ok vmi h (chunk_pfn P vmi paddr buf_offset)).2.2 1
           [HostCall.map_range prot_t.PROT_WRITE
             ((xen_pfn_to_mfn P ok vmi h (chunk_pfn P vmi paddr buf_offset)).1 % 2 ^ P.addr_bits)
             false]) := by
  rw [xen_put_memory_loop]
  simp only [hc, if_true]
  by_cases hok : ok (xen_pfn_to_mfn P ok vmi h (chunk_pfn P vmi paddr buf_offset)).2.2.attempts
          [(xen_pfn_to_mfn P ok vmi h (chunk_pfn P vmi paddr buf_offset)).1 % 2 ^ P.addr_bits]
          = true
  · simp only [hok, if_true]
    simp [xen_get_memory_mfn, chunk_pfn, chunk_phys] at hok ⊢
    simp [hok, after_chunk, memcpy_to_frame, xen_release_memory, chunk_len, chunk_offset,
      chunk_phys, next_count]
  · simp only [hok]
    simp [xen_get_memory_mfn, chunk_pfn, chunk_phys] at hok ⊢
    simp [hok, after_calls]

theorem error_exit_none (P : Platform) (h : Host) : error_exit P h none none none = h := rfl

theorem xen_pfn_to_mfn_hvm (P : Platform) (ok : Nat → List Nat → Bool) (vmi : vmi_instance)
    (h : Host) (pfn : Nat) (hhvm : vmi.driver.hvm ≠ 0) :
    xen_pfn_to_mfn P ok vmi h pfn = (pfn, vmi, h) := by
  simp [xen_pfn_to_mfn, hhvm]

theorem xen_pfn_to_mfn_cached (P : Platform) (ok : Nat → List Nat → Bool) (vmi : vmi_instance)
    (h : Host) (pfn : Nat) (table : Mapping) (hpv : vmi.driver.hvm = 0)
    (ht : vmi.driver.live_pfn_to_mfn_table = some table) :
    xen_pfn_to_mfn P ok vmi h pfn = (read_ulong P h.bytes table pfn, vmi, h) := by
  simp [xen_pfn_to_mfn, hpv, ht, error_exit]

theorem xen_pfn_to_mfn_build (P : Platform) (ok : Nat → List Nat → Bool) (vmi : vmi_instance)
    (h : Host) (pfn : Nat) (hpv : vmi.driver.hvm = 0)
    (ht : vmi.driver.live_pfn_to_mfn_table = none) :
    xen_pfn_to_mfn P ok vmi h pfn =
      if ok h.attempts [shinfo_mfn P vmi] = false then
        (0, vmi, after_calls h 1 [HostCall.map_range prot_t.PROT_READ (shinfo_mfn P vmi) false])
      else if ok (h.attempts + 1) [fll_mfn P vmi h] = false then
        (0, vmi, after_calls h 2
          [HostCall.map_range prot_t.PROT_READ (shinfo_mfn P vmi) true,
           HostCall.map_range prot_t.PROT_READ (fll_mfn P vmi h) false,
           HostCall.munmap [shinfo_mfn P vmi] P.XC_PAGE_SIZE])
      else if ok (h.attempts + 2) (frame_list_frames P vmi h) = false then
        (0, vmi, after_calls h 3
          [HostCall.map_range prot_t.PROT_READ (shinfo_mfn P vmi) true,
           HostCall.map_range prot_t.PROT_READ (fll_mfn P vmi h) true,
           HostCall.map_batch prot_t.PROT_READ (frame_list_frames P vmi h) false,
           HostCall.munmap [shinfo_mfn P vmi] P.XC_PAGE_SIZE,
           HostCall.munmap [fll_mfn P vmi h] P.XC_PAGE_SIZE])
      else if ok (h.attempts + 3) (table_frames P vmi h) = false then
        (0, vmi, after_calls h 4
          [HostCall.map_range prot_t.PROT_READ (shinfo_mfn P vmi) true,
           HostCall.map_range prot_t.PROT_READ (fll_mfn P vmi h) true,
           HostCall.map_batch prot_t.PROT_READ (frame_list_frames P vmi h) true,
           HostCall.map_batch prot_t.PROT_READ (table_frames P vmi h) false,
           HostCall.munmap [shinfo_mfn P vmi] P.XC_PAGE_SIZE,
           HostCall.munmap [fll_mfn P vmi h] P.XC_PAGE_SIZE,
           HostCall.munmap (frame_list_frames P vmi h) P.XC_PAGE_SIZE])
      else
        (read_ulong P h.bytes (table_frames P vmi h) pfn, with_table P vmi h, after_calls h 4
          [HostCall.map_range prot_t.PROT_READ (shinfo_mfn P vmi) true,
           HostCall.map_range prot_t.PROT_READ (fll_mfn P vmi h) true,
           HostCall.map_batch prot_t.PROT_READ (frame_list_frames P vmi h) true,
           HostCall.map_batch prot_t.PROT_READ (table_frames P vmi h) true,
           HostCall.munmap [shinfo_mfn P vmi] P.XC_PAGE_SIZE,
           HostCall.munmap [fll_mfn P vmi h] P.XC_PAGE_SIZE,
           HostCall.munmap (frame_list_frames P vmi h) P.XC_PAGE_SIZE]) := by
  by_cases h1 : ok h.attempts [shinfo_mfn P vmi] = false
  · simp [xen_pfn_to_mfn, hpv, ht, xen_get_memory_mfn, error_exit, after_calls, shinfo_mfn] at h1 ⊢
    simp [h1]
  · by_cases h2 : ok (h.attempts + 1) [fll_mfn P vmi h] = false
    · simp [xen_pfn_to_mfn, hpv, ht, xen_get_memory_mfn, error_exit, after_calls, shinfo_mfn,
        fll_mfn, xen_release_memory] at h1 h2 ⊢
      simp [h1, h2]
    · by_cases h3 : ok (h.attempts + 2) (frame_list_frames P vmi h) = false
      · simp [xen_pfn_to_mfn, hpv, ht, xen_get_memory_mfn, error_exit, after_calls, shinfo_mfn,
          fll_mfn, xen_release_memory, xc_map_foreign_batch, frame_list_frames, guest_nr_pfns,
          read_frames, read_ulong] at h1 h2 h3 ⊢
        simp [h1, h2, h3]
      · by_cases h4 : ok (h.attempts + 3) (table_frames P vmi h) = false
        · simp [xen_pfn_to_mfn, hpv, ht, xen_get_memory_mfn, error_exit, after_calls, shinfo_mfn,
            fll_mfn, xen_release_memory, xc_map_foreign_batch, frame_list_frames, guest_nr_pfns,
            read_frames, read_ulong, table_frames] at h1 h2 h3 h4 ⊢
          simp [h1, h2, h3, h4]
        · simp [xen_pfn_to_mfn, hpv, ht, xen_get_memory_mfn, error_exit, after_calls, shinfo_mfn,
            fll_mfn, xen_release_memory, xc_map_foreign_batch, frame_list_frames, guest_nr_pfns,
            read_frames, read_ulong, table_frames, with_table] at h1 h2 h3 h4 ⊢
          simp [h1, h2, h3, h4]

theorem after_calls_nil (h : Host) : after_calls h 0 [] = h := by
  cases h; simp [after_calls]

/-- What a call of `xen_pfn_to_mfn` can do to the session: it appends host
calls that are neither chunk maps nor copies, keeps memory and the
configuration, and releases what it mapped except a newly cached table. -/
theorem xen_pfn_to_mfn_effect (P : Platform) (ok : Nat → List Nat → Bool) (vmi : vmi_instance)
    (h : Host) (pfn : Nat) :
    ∃ n calls, (xen_pfn_to_mfn P ok vmi h pfn).2.2 = after_calls h n calls ∧
      (∀ e ∈ calls, is_chunk_map e = false ∧ is_memcpy e = false) ∧
      (xen_pfn_to_mfn P ok vmi h pfn).2.1.page_size = vmi.page_size ∧
      (xen_pfn_to_mfn P ok vmi h pfn).2.1.page_shift = vmi.page_shift ∧
      (xen_pfn_to_mfn P ok vmi h pfn).2.1.driver.hvm = vmi.driver.hvm ∧
      calls.countP is_successful_map + vmi.driver.live_pfn_to_mfn_table.toList.length
        = calls.countP is_munmap
          + (xen_pfn_to_mfn P ok vmi h pfn).2.1.driver.live_pfn_to_mfn_table.toList.length := by
  by_cases hhvm : vmi.driver.hvm ≠ 0
  · rw [xen_pfn_to_mfn_hvm P ok vmi h pfn hhvm]
    exact ⟨0, [], (after_calls_nil h).symm, by simp, rfl, rfl, rfl, by simp⟩
  · have hpv : vmi.driver.hvm = 0 := by simpa using hhvm
    cases ht : vmi.driver.live_pfn_to_mfn_table with
    | some table =>
      rw [xen_pfn_to_mfn_cached P ok vmi h pfn table hpv ht]
      exact ⟨0, [], (after_calls_nil h).symm, by simp, rfl, rfl, rfl, by simp [ht]⟩
    | none =>
      rw [xen_pfn_to_mfn_build P ok vmi h pfn hpv ht]
      split_ifs
      · exact ⟨_, _, rfl, by simp [is_chunk_map, is_memcpy], rfl, rfl, rfl,
          by simp [ht, is_successful_map, is_munmap]⟩
      · exact ⟨_, _, rfl, by simp [is_chunk_map, is_memcpy], rfl, rfl, rfl,
          by simp [ht, is_successful_map, is_munmap]⟩
      · exact ⟨_, _, rfl, by simp [is_chunk_map, is_memcpy], rfl, rfl, rfl,
          by simp [ht, is_successful_map, is_munmap]⟩
      · exact ⟨_, _, rfl, by simp [is_chunk_map, is_memcpy], rfl, rfl, rfl,
          by simp [ht, is_successful_map, is_munmap]⟩
      · exact ⟨_, _, rfl, by simp [is_chunk_map, is_memcpy], rfl, rfl, rfl,
          by simp [ht, is_successful_map, is_munmap, with_table]⟩

theorem chunk_offset_lt (P : Platform) (vmi : vmi_instance) (paddr buf_offset : Nat)
    (hps : 0 < vmi.page_size) : chunk_offset P vmi paddr buf_offset < vmi.page_size := by
  have := @Nat.and_le_left (vmi.page_size - 1) (chunk_phys P paddr buf_offset)
  unfold chunk_offset
  omega

theorem chunk_len_pos (P : Platform) (vmi : vmi_instance) (paddr buf_offset count : Nat)
    (hps : 0 < vmi.page_size) (hc : 0 < count) : 0 < chunk_len P vmi paddr buf_offset count := by
  have := chunk_offset_lt P vmi paddr buf_offset hps
  unfold chunk_len
  split_ifs <;> omega

theorem chunk_len_le (P : Platform) (vmi : vmi_instance) (paddr buf_offset count : Nat) :
    chunk_len P vmi paddr buf_offset count ≤ count := by
  unfold chunk_len
  split_ifs with hgt
  · have := Nat.mod_le (chunk_offset P vmi paddr buf_offset + count) (2 ^ (max P.addr_bits 32))
    omega
  · exact le_refl _

theorem next_count_eq (count write_len : Nat) (hle : write_len ≤ count) (hc : count < 2 ^ 32) :
    next_count count write_len = count - write_len := by
  unfold next_count
  rw [Nat.mod_eq_of_lt (by omega : write_len < 2 ^ 32)]
  have h1 : count + (2 ^ 32 - write_len) = (count - write_len) + 2 ^ 32 := by omega
  rw [h1, Nat.add_mod_right, Nat.mod_eq_of_lt (by omega)]

theorem replay_memcpy_append (buf : Nat → Nat) (l1 l2 : List HostCall)
    (bytes : Nat → Nat → Nat) :
    replay_memcpy buf (l1 ++ l2) bytes = replay_memcpy buf l2 (replay_memcpy buf l1 bytes) := by
  induction l1 generalizing bytes with
  | nil => rfl
  | cons e l ih =>
    cases e <;> simp [replay_memcpy, ih]

theorem replay_memcpy_no_copy (buf : Nat → Nat) (l : List HostCall)
    (bytes : Nat → Nat → Nat) (hl : ∀ e ∈ l, is_memcpy e = false) :
    replay_memcpy buf l bytes = bytes := by
  induction l with
  | nil => rfl
  | cons e l ih =>
    have he := hl e (List.mem_cons_self _ _)
    have ih' := ih (fun x hx => hl x (List.mem_cons_of_mem _ hx))
    cases e <;> simp_all [replay_memcpy, is_memcpy]

theorem any_failed_chunk_map_of_no_chunk_map (l : List HostCall)
    (hl : ∀ e ∈ l, is_chunk_map e = false ∧ is_memcpy e = false) :
    l.any is_failed_chunk_map = false := by
  rw [List.any_eq_false]
  intro e he
  have := (hl e he).1
  cases e with
  | map_range prot mfn b => cases prot <;> cases b <;> simp_all [is_chunk_map, is_failed_chunk_map]
  | map_batch _ _ _ => simp [is_failed_chunk_map]
  | munmap _ _ => simp [is_failed_chunk_map]
  | memcpy _ _ _ _ => simp [is_failed_chunk_map]

/-- What a run of the loop does to the session. -/
theorem loop_effect (P : Platform) (ok : Nat → List Nat → Bool) (paddr : Nat) (buf : Nat → Nat) :
    ∀ (fuel : Nat) (vmi : vmi_instance) (h : Host) (count buf_offset : Nat),
    ∃ calls,
      (xen_put_memory_loop P ok paddr buf fuel vmi h count buf_offset).2.2.log = h.log ++ calls ∧
      (xen_put_memory_loop P ok paddr buf fuel vmi h count buf_offset).2.2.bytes
        = replay_memcpy buf calls h.bytes ∧
      h.attempts ≤ (xen_put_memory_loop P ok paddr buf fuel vmi h count buf_offset).2.2.attempts ∧
      (xen_put_memory_loop P ok paddr buf fuel vmi h count buf_offset).2.1.page_size
        = vmi.page_size ∧
      calls.countP is_successful_map + vmi.driver.live_pfn_to_mfn_table.toList.length
        = calls.countP is_munmap
          + (xen_put_memory_loop P ok paddr buf fuel vmi h count
              buf_offset).2.1.driver.live_pfn_to_mfn_table.toList.length ∧
      ((xen_put_memory_loop P ok paddr buf fuel vmi h count buf_offset).1
          = some status_t.VMI_FAILURE →
        ∃ evs mfn, calls = evs ++ [HostCall.map_range prot_t.PROT_WRITE mfn false] ∧
          evs.any is_failed_chunk_map = false ∧
          h.attempts <
            (xen_put_memory_loop P ok paddr buf fuel vmi h count buf_offset).2.2.attempts) ∧
      ((xen_put_memory_loop P ok paddr buf fuel vmi h count buf_offset).1
          ≠ some status_t.VMI_FAILURE → calls.any is_failed_chunk_map = false) := by
  intro fuel
  induction fuel with
  | zero =>
    intro vmi h count buf_offset
    refine ⟨[], ?_⟩
    by_cases hc : 0 < count
    · rw [loop_no_fuel P ok paddr buf vmi h count buf_offset hc]
      simp [replay_memcpy]
    · have hc0 : count = 0 := by omega
      subst hc0
      rw [loop_count_zero]
      simp [replay_memcpy]
  | succ fuel ih =>
    intro vmi h count buf_offset
    by_cases hc : 0 < count
    · obtain ⟨n, c1, hhost, hc1, hps, _, _, hcnt⟩ :=
        xen_pfn_to_mfn_effect P ok vmi h (chunk_pfn P vmi paddr buf_offset)
      rw [loop_step P ok paddr buf fuel vmi h count buf_offset hc]
      split_ifs with hok
      · obtain ⟨c2, hlog, hbytes, hatt, hps2, hcnt2, hfail, hnofail⟩ :=
          ih (xen_pfn_to_mfn P ok vmi h (chunk_pfn P vmi paddr buf_offset)).2.1
            (after_chunk (xen_pfn_to_mfn P ok vmi h (chunk_pfn P vmi paddr buf_offset)).2.2
              ((xen_pfn_to_mfn P ok vmi h (chunk_pfn P vmi paddr buf_offset)).1
                % 2 ^ P.addr_bits)
              (chunk_offset P vmi paddr buf_offset) buf buf_offset
              (chunk_len P vmi paddr buf_offset count) vmi.page_size)
            (next_count count (chunk_len P vmi paddr buf_offset count))
            (buf_offset + chunk_len P vmi paddr buf_offset count)
        refine ⟨c1 ++ [HostCall.map_range prot_t.PROT_WRITE
            ((xen_pfn_to_mfn P ok vmi h (chunk_pfn P vmi paddr buf_offset)).1 % 2 ^ P.addr_bits)
            true,
          HostCall.memcpy
            ((xen_pfn_to_mfn P ok vmi h (chunk_pfn P vmi paddr buf_offset)).1 % 2 ^ P.addr_bits)
            (chunk_offset P vmi paddr buf_offset) buf_offset
            (chunk_len P vmi paddr buf_offset count),
          HostCall.munmap
            [(xen_pfn_to_mfn P ok vmi h (chunk_pfn P vmi paddr buf_offset)).1 % 2 ^ P.addr_bits]
            vmi.page_size] ++ c2, ?_, ?_, ?_, ?_, ?_, ?_, ?_⟩
        · rw [hlog]; simp [after_chunk, hhost, after_calls]
        · rw [hbytes, replay_memcpy_append, replay_memcpy_append,
            replay_memcpy_no_copy buf c1 h.bytes (fun e he => (hc1 e he).2)]
          simp [after_chunk, hhost, after_calls, replay_memcpy]
        · have : h.attempts ≤ (after_chunk
              (xen_pfn_to_mfn P ok vmi h (chunk_pfn P vmi paddr buf_offset)).2.2
              ((xen_pfn_to_mfn P ok vmi h (chunk_pfn P vmi paddr buf_offset)).1
                % 2 ^ P.addr_bits)
              (chunk_offset P vmi paddr buf_offset) buf buf_offset
              (chunk_len P vmi paddr buf_offset count) vmi.page_size).attempts := by
            simp [after_chunk, hhost, after_calls]; omega
          omega
        · rw [hps2, hps]
        · simp only [List.countP_append] at hcnt2 ⊢
          simp [is_successful_map, is_munmap] at hcnt2 ⊢
          omega
        · intro hf
          obtain ⟨evs, mfn, hevs, hany, hlt⟩ := hfail hf
          refine ⟨c1 ++ [HostCall.map_range prot_t.PROT_WRITE
              ((xen_pfn_to_mfn P ok vmi h (chunk_pfn P vmi paddr buf_offset)).1
                % 2 ^ P.addr_bits) true,
            HostCall.memcpy
              ((xen_pfn_to_mfn P ok vmi h (chunk_pfn P vmi paddr buf_offset)).1
                % 2 ^ P.addr_bits)
              (chunk_offset P vmi paddr buf_offset) buf_offset
              (chunk_len P vmi paddr buf_offset count),
            HostCall.munmap
              [(xen_pfn_to_mfn P ok vmi h (chunk_pfn P vmi paddr buf_offset)).1
                % 2 ^ P.addr_bits]
              vmi.page_size] ++ evs, mfn, ?_, ?_, ?_⟩
          · rw [hevs]; simp
          · simp [List.any_append, hany, any_failed_chunk_map_of_no_chunk_map c1 hc1,
              is_failed_chunk_map]
          · have : h.attempts ≤ (after_chunk
                (xen_pfn_to_mfn P ok vmi h (chunk_pfn P vmi paddr buf_offset)).2.2
                ((xen_pfn_to_mfn P ok vmi h (chunk_pfn P vmi paddr buf_offset)).1
                  % 2 ^ P.addr_bits)
                (chunk_offset P vmi paddr buf_offset) buf buf_offset
                (chunk_len P vmi paddr buf_offset count) vmi.page_size).attempts := by
              simp [after_chunk, hhost, after_calls]; omega
            omega
        · intro hnf
          simp [List.any_append, hnofail hnf, any_failed_chunk_map_of_no_chunk_map c1 hc1,
            is_failed_chunk_map]
      · refine ⟨c1 ++ [HostCall.map_range prot_t.PROT_WRITE
            ((xen_pfn_to_mfn P ok vmi h (chunk_pfn P vmi paddr buf_offset)).1 % 2 ^ P.addr_bits)
            false], ?_, ?_, ?_, ?_, ?_, ?_, ?_⟩
        · simp [hhost, after_calls]
        · rw [replay_memcpy_append,
            replay_memcpy_no_copy buf c1 h.bytes (fun e he => (hc1 e he).2)]
          simp [hhost, after_calls, replay_memcpy]
        · simp [hhost, after_calls]; omega
        · exact hps
        · simp only [List.countP_append]
          simp [is_successful_map, is_munmap]
          exact hcnt
        · intro _
          exact ⟨c1, _, rfl, any_failed_chunk_map_of_no_chunk_map c1 hc1,
            by simp [hhost, after_calls]; omega⟩
        · intro hnf
          exact absurd rfl hnf
    · have hc0 : count = 0 := by omega
      subst hc0
      rw [loop_count_zero]
      exact ⟨[], by simp [replay_memcpy]⟩

/-- The loop returns: `count` iterations are enough. -/
theorem xen_put_memory_loop_terminates (P : Platform) (ok : Nat → List Nat → Bool) (paddr : Nat)
    (buf : Nat → Nat) :
    ∀ (fuel : Nat) (vmi : vmi_instance) (h : Host) (count buf_offset : Nat),
    0 < vmi.page_size → count < 2 ^ 32 → count ≤ fuel →
    (xen_put_memory_loop P ok paddr buf fuel vmi h count buf_offset).1 ≠ none := by
  intro fuel
  induction fuel with
  | zero =>
    intro vmi h count buf_offset _ _ hle
    have hc0 : count = 0 := by omega
    subst hc0
    rw [loop_count_zero]; simp
  | succ fuel ih =>
    intro vmi h count buf_offset hps hlt hle
    by_cases hc : 0 < count
    · obtain ⟨n, c1, hhost, hc1, hps1, _, _, hcnt⟩ :=
        xen_pfn_to_mfn_effect P ok vmi h (chunk_pfn P vmi paddr buf_offset)
      rw [loop_step P ok paddr buf fuel vmi h count buf_offset hc]
      split_ifs with hok
      · have hpos := chunk_len_pos P vmi paddr buf_offset count hps hc
        have hlen := chunk_len_le P vmi paddr buf_offset count
        have hnext := next_count_eq count _ hlen hlt
        apply ih
        · rw [hps1]; exact hps
        · omega
        · omega
      · simp
    · have hc0 : count = 0 := by omega
      subst hc0
      rw [loop_count_zero]; simp

/-- A call of `xen_pfn_to_mfn` looks only at the outcomes of the attempts it makes. -/
theorem xen_pfn_to_mfn_local (P : Platform) (ok ok' : Nat → List Nat → Bool)
    (vmi : vmi_instance) (h : Host) (pfn : Nat)
    (hagree : ∀ i fs, i < (xen_pfn_to_mfn P ok vmi h pfn).2.2.attempts → ok' i fs = ok i fs) :
    xen_pfn_to_mfn P ok' vmi h pfn = xen_pfn_to_mfn P ok vmi h pfn := by
  by_cases hhvm : vmi.driver.hvm ≠ 0
  · rw [xen_pfn_to_mfn_hvm P ok vmi h pfn hhvm, xen_pfn_to_mfn_hvm P ok' vmi h pfn hhvm]
  · have hpv : vmi.driver.hvm = 0 := by simpa using hhvm
    cases ht : vmi.driver.live_pfn_to_mfn_table with
    | some table =>
      rw [xen_pfn_to_mfn_cached P ok vmi h pfn table hpv ht,
        xen_pfn_to_mfn_cached P ok' vmi h pfn table hpv ht]
    | none =>
      rw [xen_pfn_to_mfn_build P ok vmi h pfn hpv ht] at hagree ⊢
      rw [xen_pfn_to_mfn_build P ok' vmi h pfn hpv ht]
      by_cases h1 : ok h.attempts [shinfo_mfn P vmi] = false
      · rw [if_pos h1] at hagree ⊢
        have e1 := hagree h.attempts [shinfo_mfn P vmi] (by simp [after_calls])
        rw [if_pos (e1.trans h1)]
      · rw [if_neg h1] at hagree ⊢
        by_cases h2 : ok (h.attempts + 1) [fll_mfn P vmi h] = false
        · rw [if_pos h2] at hagree ⊢
          have e1 := hagree h.attempts [shinfo_mfn P vmi] (by simp [after_calls])
          have e2 := hagree (h.attempts + 1) [fll_mfn P vmi h] (by simp [after_calls])
          rw [if_neg (by rw [e1]; exact h1), if_pos (e2.trans h2)]
        · rw [if_neg h2] at hagree ⊢
          by_cases h3 : ok (h.attempts + 2) (frame_list_frames P vmi h) = false
          · rw [if_pos h3] at hagree ⊢
            have e1 := hagree h.attempts [shinfo_mfn P vmi] (by simp [after_calls])
            have e2 := hagree (h.attempts + 1) [fll_mfn P vmi h] (by simp [after_calls])
            have e3 := hagree (h.attempts + 2) (frame_list_frames P vmi h)
              (by simp [after_calls])
            rw [if_neg (by rw [e1]; exact h1), if_neg (by rw [e2]; exact h2),
              if_pos (e3.trans h3)]
          · rw [if_neg h3] at hagree ⊢
            have hagree4 : ∀ i fs, i < h.attempts + 4 → ok' i fs = ok i fs := by
              intro i fs hi
              apply hagree
              split_ifs <;> simpa [after_calls] using hi
            have e1 := hagree4 h.attempts [shinfo_mfn P vmi] (by omega)
            have e2 := hagree4 (h.attempts + 1) [fll_mfn P vmi h] (by omega)
            have e3 := hagree4 (h.attempts + 2) (frame_list_frames P vmi h) (by omega)
            have e4 := hagree4 (h.attempts + 3) (table_frames P vmi h) (by omega)
            rw [if_neg (by rw [e1]; exact h1), if_neg (by rw [e2]; exact h2),
              if_neg (by rw [e3]; exact h3), e4]

/-- Two runs of the loop whose map outcomes agree before the attempt at which
the first one fails make the same host calls up to that attempt. -/
theorem loop_lockstep (P : Platform) (ok ok' : Nat → List Nat → Bool) (paddr : Nat)
    (buf : Nat → Nat) :
    ∀ (fuel : Nat) (vmi : vmi_instance) (h : Host) (count buf_offset : Nat),
    (xen_put_memory_loop P ok paddr buf fuel vmi h count buf_offset).1
      = some status_t.VMI_FAILURE →
    (∀ i fs, i + 1 < (xen_put_memory_loop P ok paddr buf fuel vmi h count buf_offset).2.2.attempts
      → ok' i fs = ok i fs) →
    ∃ rest, (xen_put_memory_loop P ok' paddr buf fuel vmi h count buf_offset).2.2.log
      = (xen_put_memory_loop P ok paddr buf fuel vmi h count buf_offset).2.2.log.dropLast
        ++ rest := by
  intro fuel
  induction fuel with
  | zero =>
    intro vmi h count buf_offset hfail _
    by_cases hc : 0 < count
    · rw [loop_no_fuel P ok paddr buf vmi h count buf_offset hc] at hfail
      simp at hfail
    · have hc0 : count = 0 := by omega
      subst hc0
      rw [loop_count_zero] at hfail
      simp at hfail
  | succ fuel ih =>
    intro vmi h count buf_offset hfail hagree
    by_cases hc : 0 < count
    · rw [loop_step P ok paddr buf fuel vmi h count buf_offset hc] at hfail hagree ⊢
      rw [loop_step P ok' paddr buf fuel vmi h count buf_offset hc]
      by_cases hok : ok (xen_pfn_to_mfn P ok vmi h (chunk_pfn P vmi paddr buf_offset)).2.2.attempts
          [(xen_pfn_to_mfn P ok vmi h (chunk_pfn P vmi paddr buf_offset)).1 % 2 ^ P.addr_bits]
          = true
      · rw [if_pos hok] at hfail hagree ⊢
        obtain ⟨_, _, _, _, _, _, hf, _⟩ := loop_effect P ok paddr buf fuel
          (xen_pfn_to_mfn P ok vmi h (chunk_pfn P vmi paddr buf_offset)).2.1
          (after_chunk (xen_pfn_to_mfn P ok vmi h (chunk_pfn P vmi paddr buf_offset)).2.2
            ((xen_pfn_to_mfn P ok vmi h (chunk_pfn P vmi paddr buf_offset)).1
              % 2 ^ P.addr_bits)
            (chunk_offset P vmi paddr buf_offset) buf buf_offset
            (chunk_len P vmi paddr buf_offset count) vmi.page_size)
          (next_count count (chunk_len P vmi paddr buf_offset count))
          (buf_offset + chunk_len P vmi paddr buf_offset count)
        obtain ⟨_, _, _, _, hlt⟩ := hf hfail
        have hlt' : (xen_pfn_to_mfn P ok vmi h (chunk_pfn P vmi paddr buf_offset)).2.2.attempts + 1
            < (xen_put_memory_loop P ok paddr buf fuel
                (xen_pfn_to_mfn P ok vmi h (chunk_pfn P vmi paddr buf_offset)).2.1
                (after_chunk (xen_pfn_to_mfn P ok vmi h (chunk_pfn P vmi paddr buf_offset)).2.2
                  ((xen_pfn_to_mfn P ok vmi h (chunk_pfn P vmi paddr buf_offset)).1
                    % 2 ^ P.addr_bits)
                  (chunk_offset P vmi paddr buf_offset) buf buf_offset
                  (chunk_len P vmi paddr buf_offset count) vmi.page_size)
                (next_count count (chunk_len P vmi paddr buf_offset count))
                (buf_offset + chunk_len P vmi paddr buf_offset count)).2.2.attempts := by
          simpa [after_chunk] using hlt
        have hloc := xen_pfn_to_mfn_local P ok ok' vmi h (chunk_pfn P vmi paddr buf_offset)
          (fun i fs hi => hagree i fs (by omega))
        rw [hloc, hagree _ _ hlt', if_pos hok]
        exact ih _ _ _ _ hfail hagree
      · rw [if_neg hok] at hfail hagree ⊢
        have hloc := xen_pfn_to_mfn_local P ok ok' vmi h (chunk_pfn P vmi paddr buf_offset)
          (fun i fs hi => hagree i fs (by simpa [after_calls] using hi))
        rw [hloc]
        obtain ⟨calls, hlog, _⟩ := loop_effect P ok' paddr buf fuel
          (xen_pfn_to_mfn P ok vmi h (chunk_pfn P vmi paddr buf_offset)).2.1
          (after_chunk (xen_pfn_to_mfn P ok vmi h (chunk_pfn P vmi paddr buf_offset)).2.2
            ((xen_pfn_to_mfn P ok vmi h (chunk_pfn P vmi paddr buf_offset)).1
              % 2 ^ P.addr_bits)
            (chunk_offset P vmi paddr buf_offset) buf buf_offset
            (chunk_len P vmi paddr buf_offset count) vmi.page_size)
          (next_count count (chunk_len P vmi paddr buf_offset count))
          (buf_offset + chunk_len P vmi paddr buf_offset count)
        have hdrop : (after_calls
            (xen_pfn_to_mfn P ok vmi h (chunk_pfn P vmi paddr buf_offset)).2.2 1
            [HostCall.map_range prot_t.PROT_WRITE
              ((xen_pfn_to_mfn P ok vmi h (chunk_pfn P vmi paddr buf_offset)).1
                % 2 ^ P.addr_bits) false]).log.dropLast
            = (xen_pfn_to_mfn P ok vmi h (chunk_pfn P vmi paddr buf_offset)).2.2.log := by
          simp [after_calls, List.dropLast_concat]
        split_ifs
        · rw [hlog]
          exact ⟨(after_chunk (xen_pfn_to_mfn P ok vmi h (chunk_pfn P vmi paddr buf_offset)).2.2
            ((xen_pfn_to_mfn P ok vmi h (chunk_pfn P vmi paddr buf_offset)).1
              % 2 ^ P.addr_bits)
            (chunk_offset P vmi paddr buf_offset) buf buf_offset
            (chunk_len P vmi paddr buf_offset count) vmi.page_size).log.drop
              (xen_pfn_to_mfn P ok vmi h (chunk_pfn P vmi paddr buf_offset)).2.2.log.length
            ++ calls, by simp [hdrop, after_chunk]⟩
        · exact ⟨[HostCall.map_range prot_t.PROT_WRITE
              ((xen_pfn_to_mfn P ok vmi h (chunk_pfn P vmi paddr buf_offset)).1
                % 2 ^ P.addr_bits) false], by simp [hdrop, after_calls]⟩
    · have hc0 : count = 0 := by omega
      subst hc0
      rw [loop_count_zero] at hfail
      simp at hfail

/-- The value `ceil_div n d` is the least `k` with `n ≤ k * d`. -/
theorem ceil_div_least (n d : Nat) (hd : 0 < d) :
    n ≤ ceil_div n d * d ∧ ∀ k, n ≤ k * d → ceil_div n d ≤ k := by
  unfold ceil_div
  constructor
  · have h1 := Nat.div_add_mod (n + d - 1) d
    have h2 := Nat.mod_lt (n + d - 1) hd
    have h3 : (n + d - 1) / d * d = d * ((n + d - 1) / d) := Nat.mul_comm _ _
    omega
  · intro k hk
    have h4 : (n + d - 1) / d < k + 1 := by
      rw [Nat.div_lt_iff_lt_mul hd]
      have : (k + 1) * d = k * d + d := by ring
      omega
    omega

/-- Rounded-up division in a machine word that does not wrap. -/
theorem wrapping_ceil_div (M n d : Nat) (hd : 0 < d) (hdM : d < M) (hn : n + d ≤ M) :
    ((n + d % M + (M - 1)) % M) / (d % M) = ceil_div n d := by
  unfold ceil_div
  rw [Nat.mod_eq_of_lt hdM]
  have h1 : n + d + (M - 1) = (n + d - 1) + M := by omega
  rw [h1, Nat.add_mod_right, Nat.mod_eq_of_lt (by omega)]

theorem frame_list_pages_eq (P : Platform) (n : Nat) (hfpp : 0 < P.fpp)
    (hd : P.fpp * P.fpp < 2 ^ P.long_bits) (hn : n + P.fpp * P.fpp ≤ 2 ^ P.long_bits) :
    frame_list_pages P n = ceil_div n (P.fpp * P.fpp) :=
  wrapping_ceil_div _ n _ (Nat.mul_pos hfpp hfpp) hd hn

theorem table_pages_eq (P : Platform) (n : Nat) (hfpp : 0 < P.fpp)
    (hd : P.fpp * P.fpp < 2 ^ P.long_bits) (hn : n + P.fpp * P.fpp ≤ 2 ^ P.long_bits) :
    table_pages P n = ceil_div n P.fpp := by
  have hle : P.fpp ≤ P.fpp * P.fpp := Nat.le_mul_of_pos_left _ hfpp
  exact wrapping_ceil_div _ n _ hfpp (by omega) (by omega)

theorem read_frames_length (P : Platform) (bytes : Nat → Nat → Nat) (m : Mapping) (num : Nat) :
    (read_frames P bytes m num).length = num := by
  simp [read_frames]

/-- Once the table is cached, consecutive lookups leave instance and host alone. -/
theorem xen_pfn_to_mfn_each_cached (P : Platform) (ok : Nat → List Nat → Bool)
    (qs : List Nat) (vmi : vmi_instance) (h : Host) (table : Mapping)
    (hpv : vmi.driver.hvm = 0) (ht : vmi.driver.live_pfn_to_mfn_table = some table) :
    xen_pfn_to_mfn_each P ok qs vmi h = (vmi, h) := by
  induction qs with
  | nil => rfl
  | cons q rest ih =>
    simp only [xen_pfn_to_mfn_each, xen_pfn_to_mfn_cached P ok vmi h q table hpv ht]
    exact ih

/-- The table is cached after a call exactly when it was cached before or was
built by the call; the call then returned the entry of that table. -/
theorem xen_pfn_to_mfn_success (P : Platform) (ok : Nat → List Nat → Bool) (vmi : vmi_instance)
    (h : Host) (p : Nat) (hpv : vmi.driver.hvm = 0)
    (hsucc : (xen_pfn_to_mfn P ok vmi h p).2.1.driver.live_pfn_to_mfn_table ≠ none) :
    (xen_pfn_to_mfn P ok vmi h p).2.1.driver.hvm = 0 ∧
    ∃ table, (xen_pfn_to_mfn P ok vmi h p).2.1.driver.live_pfn_to_mfn_table = some table ∧
      (xen_pfn_to_mfn P ok vmi h p).1
        = read_ulong P (xen_pfn_to_mfn P ok vmi h p).2.2.bytes table p := by
  cases ht : vmi.driver.live_pfn_to_mfn_table with
  | some table =>
    rw [xen_pfn_to_mfn_cached P ok vmi h p table hpv ht]
    exact ⟨hpv, table, ht, rfl⟩
  | none =>
    rw [xen_pfn_to_mfn_build P ok vmi h p hpv ht] at hsucc ⊢
    split_ifs at hsucc ⊢ <;> simp [ht] at hsucc
    exact ⟨by simp [with_table, hpv], table_frames P vmi h, by simp [with_table],
      by simp [after_calls]⟩

theorem new_calls_append (h h' : Host) (calls : List HostCall) (hlog : h'.log = h.log ++ calls) :
    new_calls h h' = calls := by
  simp [new_calls, hlog]

/-- Every driver call keeps the balance between successful maps and releases. -/
theorem run_calls_balance (P : Platform) (ok : Nat → List Nat → Bool) :
    ∀ (calls : List DriverCall) (vmi : vmi_instance) (h : Host),
    h.log.countP is_successful_map
      = h.log.countP is_munmap + vmi.driver.live_pfn_to_mfn_table.toList.length →
    (run_calls P ok calls vmi h).2.log.countP is_successful_map
      = (run_calls P ok calls vmi h).2.log.countP is_munmap
        + (run_calls P ok calls vmi h).1.driver.live_pfn_to_mfn_table.toList.length := by
  intro calls
  induction calls with
  | nil => intro vmi h hbal; exact hbal
  | cons c rest ih =>
    intro vmi h hbal
    cases c with
    | put_memory paddr count buf =>
      simp only [run_calls]
      apply ih
      obtain ⟨calls, hlog, _, _, _, hcnt, _, _⟩ := loop_effect P ok paddr buf count vmi h count 0
      unfold xen_put_memory
      rw [hlog, List.countP_append, List.countP_append]
      omega
    | pfn_to_mfn pfn =>
      simp only [run_calls]
      apply ih
      obtain ⟨n, calls, hhost, _, _, _, _, hcnt⟩ := xen_pfn_to_mfn_effect P ok vmi h pfn
      rw [hhost]
      simp only [after_calls, List.countP_append]
      omega

/-- Within one call of `xen_pfn_to_mfn` the mappings released are the mappings
obtained, in the same order, except a newly cached table. -/
theorem xen_pfn_to_mfn_releases (P : Platform) (ok : Nat → List Nat → Bool) (vmi : vmi_instance)
    (h : Host) (pfn : Nat) :
    obtained_mappings (new_calls h (xen_pfn_to_mfn P ok vmi h pfn).2.2)
        ++ vmi.driver.live_pfn_to_mfn_table.toList
      = released_mappings (new_calls h (xen_pfn_to_mfn P ok vmi h pfn).2.2)
        ++ (xen_pfn_to_mfn P ok vmi h pfn).2.1.driver.live_pfn_to_mfn_table.toList := by
  by_cases hhvm : vmi.driver.hvm ≠ 0
  · rw [xen_pfn_to_mfn_hvm P ok vmi h pfn hhvm]
    simp [new_calls, obtained_mappings, released_mappings]
  · have hpv : vmi.driver.hvm = 0 := by simpa using hhvm
    cases ht : vmi.driver.live_pfn_to_mfn_table with
    | some table =>
      rw [xen_pfn_to_mfn_cached P ok vmi h pfn table hpv ht]
      simp [new_calls, obtained_mappings, released_mappings, ht]
    | none =>
      rw [xen_pfn_to_mfn_build P ok vmi h pfn hpv ht]
      split_ifs <;>
        simp [new_calls, after_calls, obtained_mappings, released_mappings, ht, with_table]

theorem chunk_offset_eq_mod (P : Platform) (vmi : vmi_instance) (paddr buf_offset : Nat)
    (hP : vmi.page_size = 2 ^ vmi.page_shift) (hshift : vmi.page_shift ≤ P.addr_bits) :
    chunk_offset P vmi paddr buf_offset = (paddr + buf_offset) % vmi.page_size := by
  unfold chunk_offset chunk_phys
  rw [hP, Nat.land_comm, Nat.and_pow_two_sub_one_eq_mod]
  exact Nat.mod_mod_of_dvd _ (Nat.pow_dvd_pow 2 hshift)

theorem chunk_len_eq_min (P : Platform) (vmi : vmi_instance) (paddr buf_offset count : Nat)
    (hps : 0 < vmi.page_size)
    (hnowrap : chunk_offset P vmi paddr buf_offset + count < 2 ^ (max P.addr_bits 32)) :
    chunk_len P vmi paddr buf_offset count
      = min count (vmi.page_size - chunk_offset P vmi paddr buf_offset) := by
  have := chunk_offset_lt P vmi paddr buf_offset hps
  unfold chunk_len
  rw [Nat.mod_eq_of_lt hnowrap]
  split_ifs <;> omega

theorem page_size_lt_word (P : Platform) (vmi : vmi_instance)
    (hP : vmi.page_size = 2 ^ vmi.page_shift) (hshift : vmi.page_shift ≤ P.addr_bits) :
    vmi.page_size ≤ 2 ^ (max P.addr_bits 32) := by
  rw [hP]
  exact Nat.pow_le_pow_right (by norm_num) (le_trans hshift (le_max_left _ _))

theorem ceil_div_one_page (x d : Nat) (hx : 0 < x) (hxd : x ≤ d) : ceil_div x d = 1 := by
  unfold ceil_div
  apply Nat.div_eq_of_lt_le <;> omega

theorem ceil_div_next_page (o count d : Nat) (ho : o < d) (hgt : d - o < count) :
    ceil_div (o + count) d = 1 + ceil_div (count - (d - o)) d := by
  unfold ceil_div
  have h1 : o + count + d - 1 = (count - (d - o) + d - 1) + d := by omega
  rw [h1, Nat.add_div_right _ (by omega : 0 < d)]
  omega

/-- Number of chunk mappings made by a successful run of the loop. -/
theorem loop_chunk_maps (P : Platform) (ok : Nat → List Nat → Bool) (paddr : Nat)
    (buf : Nat → Nat) :
    ∀ (fuel : Nat) (vmi : vmi_instance) (h : Host) (count buf_offset : Nat),
    vmi.page_size = 2 ^ vmi.page_shift → vmi.page_shift ≤ P.addr_bits → count < 2 ^ 32 →
    (paddr + buf_offset) % vmi.page_size + count < 2 ^ (max P.addr_bits 32) →
    (xen_put_memory_loop P ok paddr buf fuel vmi h count buf_offset).1
      = some status_t.VMI_SUCCESS →
    (xen_put_memory_loop P ok paddr buf fuel vmi h count buf_offset).2.2.log.countP is_chunk_map
      = h.log.countP is_chunk_map
        + (if count = 0 then 0
           else ceil_div ((paddr + buf_offset) % vmi.page_size + count) vmi.page_size) := by
  intro fuel
  induction fuel with
  | zero =>
    intro vmi h count buf_offset _ _ _ _ hs
    by_cases hc : 0 < count
    · rw [loop_no_fuel P ok paddr buf vmi h count buf_offset hc] at hs
      simp at hs
    · have hc0 : count = 0 := by omega
      subst hc0
      rw [loop_count_zero]; simp
  | succ fuel ih =>
    intro vmi h count buf_offset hP hshift hcount hnowrap hs
    by_cases hc : 0 < count
    · have hps : 0 < vmi.page_size := by rw [hP]; exact Nat.two_pow_pos _
      obtain ⟨n, c1, hhost, hc1, hps1, hsh1, _, _⟩ :=
        xen_pfn_to_mfn_effect P ok vmi h (chunk_pfn P vmi paddr buf_offset)
      have hoff := chunk_offset_eq_mod P vmi paddr buf_offset hP hshift
      have hofflt := chunk_offset_lt P vmi paddr buf_offset hps
      have hlen := chunk_len_eq_min P vmi paddr buf_offset count hps (by rw [hoff]; exact hnowrap)
      have hle := chunk_len_le P vmi paddr buf_offset count
      have hnext := next_count_eq count _ hle hcount
      have hword := page_size_lt_word P vmi hP hshift
      rw [loop_step P ok paddr buf fuel vmi h count buf_offset hc] at hs ⊢
      rw [if_neg (by omega : ¬ count = 0)]
      by_cases hok : ok (xen_pfn_to_mfn P ok vmi h (chunk_pfn P vmi paddr buf_offset)).2.2.attempts
          [(xen_pfn_to_mfn P ok vmi h (chunk_pfn P vmi paddr buf_offset)).1 % 2 ^ P.addr_bits]
          = true
      swap
      · rw [if_neg hok] at hs
        simp at hs
      · rw [if_pos hok] at hs ⊢
        have hc1' : c1.countP is_chunk_map = 0 := by
          rw [List.countP_eq_zero]
          intro e he
          simp [(hc1 e he).1]
        rw [ih _ _ _ _ (by rw [hps1, hsh1]; exact hP) (by rw [hsh1]; exact hshift)
          (by omega) ?_ hs]
        · simp only [after_chunk, hhost, after_calls, List.countP_append, hc1', hps1]
          simp only [is_chunk_map, List.countP_cons_of_pos, List.countP_nil,
            List.countP_cons_of_neg, Bool.false_eq_true, not_false_eq_true]
          by_cases hlast : count ≤ vmi.page_size - chunk_offset P vmi paddr buf_offset
          · have hcl : chunk_len P vmi paddr buf_offset count = count := by
              rw [hlen]; exact min_eq_left hlast
            rw [hnext, hcl, Nat.sub_self, if_pos rfl]
            rw [ceil_div_one_page _ _ (by omega) (by rw [← hoff]; omega)]
          · have hcl : chunk_len P vmi paddr buf_offset count
                = vmi.page_size - chunk_offset P vmi paddr buf_offset := by
              rw [hlen]; exact min_eq_right (by omega)
            rw [hnext, hcl, if_neg (by omega)]
            have hz : (paddr + (buf_offset + (vmi.page_size - chunk_offset P vmi paddr
                buf_offset))) % vmi.page_size = 0 := by
              have hdm := Nat.div_add_mod (paddr + buf_offset) vmi.page_size
              rw [hoff]
              have : paddr + (buf_offset + (vmi.page_size - (paddr + buf_offset) % vmi.page_size))
                  = vmi.page_size * ((paddr + buf_offset) / vmi.page_size + 1) := by
                rw [hoff] at hofflt
                rw [Nat.mul_add, Nat.mul_one]
                omega
              rw [this, Nat.mul_mod_right]
            rw [hz, ← hoff, ceil_div_next_page _ count _ hofflt (by omega)]
            simp only [Nat.zero_add]
            omega
        · rw [hps1, hnext]
          by_cases hlast : count ≤ vmi.page_size - chunk_offset P vmi paddr buf_offset
          · have hcl : chunk_len P vmi paddr buf_offset count = count := by
              rw [hlen]; exact min_eq_left hlast
            rw [hcl, Nat.sub_self, Nat.add_zero]
            exact lt_of_lt_of_le (Nat.mod_lt _ hps) hword
          · have hcl : chunk_len P vmi paddr buf_offset count
                = vmi.page_size - chunk_offset P vmi paddr buf_offset := by
              rw [hlen]; exact min_eq_right (by omega)
            have hz : (paddr + (buf_offset + (vmi.page_size - chunk_offset P vmi paddr
                buf_offset))) % vmi.page_size = 0 := by
              have hdm := Nat.div_add_mod (paddr + buf_offset) vmi.page_size
              rw [hoff]
              have : paddr + (buf_offset + (vmi.page_size - (paddr + buf_offset) % vmi.page_size))
                  = vmi.page_size * ((paddr + buf_offset) / vmi.page_size + 1) := by
                rw [hoff] at hofflt
                rw [Nat.mul_add, Nat.mul_one]
                omega
              rw [this, Nat.mul_mod_right]
            rw [hcl, hz]
            have h32 : (2 : Nat) ^ 32 ≤ 2 ^ (max P.addr_bits 32) :=
              Nat.pow_le_pow_right (by norm_num) (le_max_right _ _)
            omega
    · have hc0 : count = 0 := by omega
      subst hc0
      rw [loop_count_zero]; simp

/-- In a run of the loop every chunk mapping is followed by one copy, except a
failed one, which ends the run. -/
theorem loop_copies (P : Platform) (ok : Nat → List Nat → Bool) (paddr : Nat)
    (buf : Nat → Nat) :
    ∀ (fuel : Nat) (vmi : vmi_instance) (h : Host) (count buf_offset : Nat),
    (xen_put_memory_loop P ok paddr buf fuel vmi h count buf_offset).2.2.log.countP is_chunk_map
        + h.log.countP is_memcpy
      = (xen_put_memory_loop P ok paddr buf fuel vmi h count buf_offset).2.2.log.countP is_memcpy
        + h.log.countP is_chunk_map
        + (if (xen_put_memory_loop P ok paddr buf fuel vmi h count buf_offset).1
              = some status_t.VMI_FAILURE then 1 else 0) := by
  intro fuel
  induction fuel with
  | zero =>
    intro vmi h count buf_offset
    by_cases hc : 0 < count
    · rw [loop_no_fuel P ok paddr buf vmi h count buf_offset hc]
      simp; omega
    · have hc0 : count = 0 := by omega
      subst hc0
      rw [loop_count_zero]
      simp; omega
  | succ fuel ih =>
    intro vmi h count buf_offset
    by_cases hc : 0 < count
    · obtain ⟨n, c1, hhost, hc1, _, _, _, _⟩ :=
        xen_pfn_to_mfn_effect P ok vmi h (chunk_pfn P vmi paddr buf_offset)
      have hcm : c1.countP is_chunk_map = 0 := by
        rw [List.countP_eq_zero]
        intro e he
        simp [(hc1 e he).1]
      have hmc : c1.countP is_memcpy = 0 := by
        rw [List.countP_eq_zero]
        intro e he
        simp [(hc1 e he).2]
      rw [loop_step P ok paddr buf fuel vmi h count buf_offset hc]
      by_cases hok : ok (xen_pfn_to_mfn P ok vmi h (chunk_pfn P vmi paddr buf_offset)).2.2.attempts
          [(xen_pfn_to_mfn P ok vmi h (chunk_pfn P vmi paddr buf_offset)).1 % 2 ^ P.addr_bits]
          = true
      · rw [if_pos hok]
        have := ih (xen_pfn_to_mfn P ok vmi h (chunk_pfn P vmi paddr buf_offset)).2.1
          (after_chunk (xen_pfn_to_mfn P ok vmi h (chunk_pfn P vmi paddr buf_offset)).2.2
            ((xen_pfn_to_mfn P ok vmi h (chunk_pfn P vmi paddr buf_offset)).1
              % 2 ^ P.addr_bits)
            (chunk_offset P vmi paddr buf_offset) buf buf_offset
            (chunk_len P vmi paddr buf_offset count) vmi.page_size)
          (next_count count (chunk_len P vmi paddr buf_offset count))
          (buf_offset + chunk_len P vmi paddr buf_offset count)
        simp only [after_chunk, hhost, after_calls, List.countP_append, hcm, hmc] at this
        simp only [is_chunk_map, is_memcpy, List.countP_cons_of_pos, List.countP_nil,
          List.countP_cons_of_neg, Bool.false_eq_true, not_false_eq_true] at this
        simp only [after_chunk, hhost, after_calls]
        omega
      · rw [if_neg hok]
        simp only [hhost, after_calls, List.countP_append, hcm, hmc]
        simp [is_chunk_map, is_memcpy]
        omega
    · have hc0 : count = 0 := by omega
      subst hc0
      rw [loop_count_zero]
      simp; omega

/-- The chunk mappings of a `xen_put_memory` call, that is the read-write
mappings made by the loop itself (the read-only mappings made by the
translation are not among them): the call returns `VMI_SUCCESS` or
`VMI_FAILURE`, and `VMI_SUCCESS` exactly when no chunk mapping fails.  When it returns
`VMI_FAILURE`, the failed chunk mapping is its last host call (nothing is
mapped or copied after it), no earlier chunk mapping failed, the host calls
before it are also made, in the same order, by every run whose map outcomes
agree before the failing attempt (a fully successful write among them), each
chunk mapping among them is followed by its copy, and memory holds exactly
those copies. -/
theorem xen_put_memory_chunk_map_failure (P : Platform) (ok : Nat → List Nat → Bool) (vmi : vmi_instance)
    (h : Host) (paddr count : Nat) (buf : Nat → Nat)
    (hps : 0 < vmi.page_size) (hcount : count < 2 ^ 32) :
    ((xen_put_memory P ok vmi h paddr count buf).1 = some status_t.VMI_SUCCESS ∨
      (xen_put_memory P ok vmi h paddr count buf).1 = some status_t.VMI_FAILURE) ∧
    ((xen_put_memory P ok vmi h paddr count buf).1 = some status_t.VMI_SUCCESS ↔
      (new_calls h (xen_put_memory P ok vmi h paddr count buf).2.2).any is_failed_chunk_map
        = false) ∧
    ((xen_put_memory P ok vmi h paddr count buf).1 = some status_t.VMI_FAILURE →
      ∃ evs mfn,
        new_calls h (xen_put_memory P ok vmi h paddr count buf).2.2
          = evs ++ [HostCall.map_range prot_t.PROT_WRITE mfn false] ∧
        evs.any is_failed_chunk_map = false ∧
        evs.countP is_chunk_map = evs.countP is_memcpy ∧
        (xen_put_memory P ok vmi h paddr count buf).2.2.bytes = replay_memcpy buf evs h.bytes ∧
        ∀ ok' : Nat → List Nat → Bool,
          (∀ i fs, i + 1 < (xen_put_memory P ok vmi h paddr count buf).2.2.attempts →
            ok' i fs = ok i fs) →
          ∃ rest, new_calls h (xen_put_memory P ok' vmi h paddr count buf).2.2 = evs ++ rest) := by
  unfold xen_put_memory
  have hterm := xen_put_memory_loop_terminates P ok paddr buf count vmi h count 0 hps hcount
    (le_refl _)
  obtain ⟨calls, hlog, hbytes, _, _, _, hfail, hnofail⟩ :=
    loop_effect P ok paddr buf count vmi h count 0
  have hnew := new_calls_append h _ calls hlog
  have hcases : (xen_put_memory_loop P ok paddr buf count vmi h count 0).1
        = some status_t.VMI_SUCCESS ∨
      (xen_put_memory_loop P ok paddr buf count vmi h count 0).1
        = some status_t.VMI_FAILURE := by
    cases hst : (xen_put_memory_loop P ok paddr buf count vmi h count 0).1 with
    | none => exact absurd hst hterm
    | some st => cases st <;> simp
  refine ⟨hcases, ?_, ?_⟩
  · rw [hnew]
    constructor
    · intro hs
      exact hnofail (by rw [hs]; simp)
    · intro hany
      rcases hcases with hs | hf
      · exact hs
      · obtain ⟨evs, mfn, hevs, _, _⟩ := hfail hf
        rw [hevs] at hany
        simp [is_failed_chunk_map] at hany
  · intro hf
    obtain ⟨evs, mfn, hevs, hany, _⟩ := hfail hf
    have hcop := loop_copies P ok paddr buf count vmi h count 0
    rw [if_pos hf, hlog, hevs] at hcop
    simp only [List.countP_append] at hcop
    simp only [is_chunk_map, is_memcpy, List.countP_cons_of_pos, List.countP_nil,
      List.countP_cons_of_neg, Bool.false_eq_true, not_false_eq_true] at hcop
    refine ⟨evs, mfn, by rw [hnew, hevs], hany, by omega, ?_, ?_⟩
    · rw [hbytes, hevs, replay_memcpy_append]
      simp [replay_memcpy]
    · intro ok' hagree
      obtain ⟨rest, hrest⟩ := loop_lockstep P ok ok' paddr buf count vmi h count 0 hf hagree
      refine ⟨rest, ?_⟩
      apply new_calls_append
      rw [hrest, hlog, hevs, ← List.append_assoc, List.dropLast_concat, List.append_assoc]

/-! ## The claims -/

/-- C1: under hardware-assisted execution `xen_pfn_to_mfn` is the identity and
touches neither the host (no map call, no guest page read) nor the instance
(cached table and frame count), whatever the guest memory holds. -/
theorem C1_hvm_identity (P : Platform) (ok : Nat → List Nat → Bool) (vmi : vmi_instance)
    (h : Host) (p : Nat) (hhvm : vmi.driver.hvm ≠ 0) :
    xen_pfn_to_mfn P ok vmi h p = (p, vmi, h) ∧
    new_calls h (xen_pfn_to_mfn P ok vmi h p).2.2 = [] ∧
    (xen_pfn_to_mfn P ok vmi h p).2.1.driver.live_pfn_to_mfn_table
      = vmi.driver.live_pfn_to_mfn_table ∧
    (xen_pfn_to_mfn P ok vmi h p).2.1.driver.nr_pfns = vmi.driver.nr_pfns := by
  simp [xen_pfn_to_mfn_hvm P ok vmi h p hhvm, new_calls]

/-- Witness for C1: the hypotheses hold on a concrete session. -/
theorem C1_hvm_identity_witness :
    (init_instance 1 1).driver.hvm ≠ 0 ∧
    xen_pfn_to_mfn x86_64 always_ok (init_instance 1 1) (fresh_host aliasing_guest) 5
      = (5, init_instance 1 1, fresh_host aliasing_guest) :=
  ⟨by decide,
   (C1_hvm_identity x86_64 always_ok (init_instance 1 1) (fresh_host aliasing_guest) 5
      (by decide)).1⟩

/-- C3 as stated fails: a write of length 0 at an address that is not page
aligned (here address 1) maps nothing, where the formula gives 1. -/
theorem C3_counterexample :
    (xen_put_memory x86_64 always_ok (init_instance 1 1) (fresh_host aliasing_guest)
      1 0 (fun _ => 0)).1 = some status_t.VMI_SUCCESS ∧
    (new_calls (fresh_host aliasing_guest)
      (xen_put_memory x86_64 always_ok (init_instance 1 1) (fresh_host aliasing_guest)
        1 0 (fun _ => 0)).2.2).countP is_chunk_map = 0 ∧
    ceil_div (1 % (init_instance 1 1).page_size + 0) (init_instance 1 1).page_size = 1 := by
  decide

/-- C3, amended: with page size `2^page_shift`, a `xen_put_memory` call of
`count` bytes (a 32-bit value) that returns `VMI_SUCCESS`, and for which
offset + count does not wrap in the arithmetic of the comparison, makes no
chunk mapping when `count = 0` and otherwise exactly
`ceil ((o + count) / page_size)` of them, `o` being `paddr mod page_size`. -/
theorem C3_chunk_mappings (P : Platform) (ok : Nat → List Nat → Bool) (vmi : vmi_instance)
    (h : Host) (paddr count : Nat) (buf : Nat → Nat)
    (hP : vmi.page_size = 2 ^ vmi.page_shift) (hshift : vmi.page_shift ≤ P.addr_bits)
    (hcount : count < 2 ^ 32)
    (hnowrap : paddr % vmi.page_size + count < 2 ^ (max P.addr_bits 32))
    (hs : (xen_put_memory P ok vmi h paddr count buf).1 = some status_t.VMI_SUCCESS) :
    (new_calls h (xen_put_memory P ok vmi h paddr count buf).2.2).countP is_chunk_map
      = if count = 0 then 0 else ceil_div (paddr % vmi.page_size + count) vmi.page_size := by
  unfold xen_put_memory at hs ⊢
  obtain ⟨calls, hlog, _⟩ := loop_effect P ok paddr buf count vmi h count 0
  have hmaps := loop_chunk_maps P ok paddr buf count vmi h count 0 hP hshift hcount
    (by simpa using hnowrap) hs
  rw [new_calls_append h _ calls hlog]
  rw [hlog, List.countP_append] at hmaps
  simpa using hmaps

/-- Witness for C3: the hypotheses hold on a concrete session. -/
theorem C3_chunk_mappings_witness :
    (init_instance 1 1).page_size = 2 ^ (init_instance 1 1).page_shift ∧
    (new_calls (fresh_host aliasing_guest)
      (xen_put_memory x86_64 always_ok (init_instance 1 1) (fresh_host aliasing_guest)
        4090 6000 (fun i => i % 256)).2.2).countP is_chunk_map
      = if 6000 = 0 then 0
        else ceil_div (4090 % (init_instance 1 1).page_size + 6000)
          (init_instance 1 1).page_size :=
  ⟨by decide,
   C3_chunk_mappings x86_64 always_ok (init_instance 1 1) (fresh_host aliasing_guest)
     4090 6000 (fun i => i % 256) (by decide) (by decide) (by decide) (by decide) (by decide)⟩

/-- C4 as stated fails on its example: with 4096-byte pages the write of 6000
bytes at address 4090 is made of three chunks, 6 bytes at offset 4090 of
PFN 0, 4096 bytes at offset 0 of PFN 1 and 1898 bytes at offset 0 of PFN 2,
not of the two chunks of 6 and 5994 bytes. -/
theorem C4_counterexample :
    (new_calls (fresh_host aliasing_guest)
      (xen_put_memory x86_64 always_ok (init_instance 1 1) (fresh_host aliasing_guest)
        4090 6000 (fun i => i % 256)).2.2).filter is_memcpy
      = [HostCall.memcpy 0 4090 0 6, HostCall.memcpy 1 0 6 4096, HostCall.memcpy 2 0 4102 1898] ∧
    (new_calls (fresh_host aliasing_guest)
      (xen_put_memory x86_64 always_ok (init_instance 1 1) (fresh_host aliasing_guest)
        4090 6000 (fun i => i % 256)).2.2).filter is_memcpy
      ≠ [HostCall.memcpy 0 4090 0 6, HostCall.memcpy 1 0 6 5994] := by
  decide

/-- C4, amended: in an iteration of the loop with `0 < count < 2^32`, page
size `2^page_shift`, no wrap of offset + count in the comparison, and a
successful chunk mapping: the offset is `phys_address mod page_size`, the
length copied is `min (count, page_size - offset)`, the bytes go from the
buffer at `buf_offset` to that offset of the frame that `xen_pfn_to_mfn` gives
for `phys_address >> page_shift`, and the loop goes on with `count` lowered
and `buf_offset` and the physical address raised by that length.  For page
size 4096, address 4090 and count 6000 the chunks are (PFN 0, offset 4090,
6 bytes), (PFN 1, offset 0, 4096 bytes), (PFN 2, offset 0, 1898 bytes). -/
theorem C4_one_iteration (P : Platform) (ok : Nat → List Nat → Bool) (paddr : Nat)
    (buf : Nat → Nat) (fuel : Nat) (vmi : vmi_instance) (h : Host) (count buf_offset : Nat)
    (hP : vmi.page_size = 2 ^ vmi.page_shift) (hshift : vmi.page_shift ≤ P.addr_bits)
    (hc : 0 < count) (hcount : count < 2 ^ 32)
    (hnowrap : (paddr + buf_offset) % vmi.page_size + count < 2 ^ (max P.addr_bits 32))
    (hok : ok (xen_pfn_to_mfn P ok vmi h (chunk_pfn P vmi paddr buf_offset)).2.2.attempts
      [(xen_pfn_to_mfn P ok vmi h (chunk_pfn P vmi paddr buf_offset)).1 % 2 ^ P.addr_bits]
      = true) :
    chunk_offset P vmi paddr buf_offset = chunk_phys P paddr buf_offset % vmi.page_size ∧
    chunk_pfn P vmi paddr buf_offset
      = (chunk_phys P paddr buf_offset / vmi.page_size) % 2 ^ P.long_bits ∧
    chunk_len P vmi paddr buf_offset count
      = min count (vmi.page_size - chunk_offset P vmi paddr buf_offset) ∧
    xen_put_memory_loop P ok paddr buf (fuel + 1) vmi h count buf_offset
      = xen_put_memory_loop P ok paddr buf fuel
          (xen_pfn_to_mfn P ok vmi h (chunk_pfn P vmi paddr buf_offset)).2.1
          (after_chunk (xen_pfn_to_mfn P ok vmi h (chunk_pfn P vmi paddr buf_offset)).2.2
            ((xen_pfn_to_mfn P ok vmi h (chunk_pfn P vmi paddr buf_offset)).1 % 2 ^ P.addr_bits)
            (chunk_offset P vmi paddr buf_offset) buf buf_offset
            (min count (vmi.page_size - chunk_offset P vmi paddr buf_offset)) vmi.page_size)
          (count - min count (vmi.page_size - chunk_offset P vmi paddr buf_offset))
          (buf_offset + min count (vmi.page_size - chunk_offset P vmi paddr buf_offset)) ∧
    chunk_phys P paddr
        (buf_offset + min count (vmi.page_size - chunk_offset P vmi paddr buf_offset))
      = (chunk_phys P paddr buf_offset
          + min count (vmi.page_size - chunk_offset P vmi paddr buf_offset)) % 2 ^ P.addr_bits ∧
    (new_calls (fresh_host aliasing_guest)
      (xen_put_memory x86_64 always_ok (init_instance 1 1) (fresh_host aliasing_guest)
        4090 6000 (fun i => i % 256)).2.2).filter is_memcpy
      = [HostCall.memcpy 0 4090 0 6, HostCall.memcpy 1 0 6 4096,
         HostCall.memcpy 2 0 4102 1898] := by
  have hps : 0 < vmi.page_size := by rw [hP]; exact Nat.two_pow_pos _
  have hoff := chunk_offset_eq_mod P vmi paddr buf_offset hP hshift
  have hlen := chunk_len_eq_min P vmi paddr buf_offset count hps (by rw [hoff]; exact hnowrap)
  have hle := chunk_len_le P vmi paddr buf_offset count
  have hnext := next_count_eq count _ hle hcount
  refine ⟨?_, ?_, hlen, ?_, ?_, by decide⟩
  · rw [hoff]
    unfold chunk_phys
    rw [hP]
    exact (Nat.mod_mod_of_dvd _ (Nat.pow_dvd_pow 2 hshift)).symm
  · unfold chunk_pfn
    rw [Nat.shiftRight_eq_div_pow, hP]
  · rw [loop_step P ok paddr buf fuel vmi h count buf_offset hc, if_pos hok, hnext, hlen]
  · unfold chunk_phys
    rw [← Nat.add_assoc, Nat.mod_add_mod]

/-- Witness for C4: the hypotheses hold on a concrete session. -/
theorem C4_one_iteration_witness :
    (init_instance 1 1).page_size = 2 ^ (init_instance 1 1).page_shift ∧
    chunk_len x86_64 (init_instance 1 1) 4090 6 5994
      = min 5994 ((init_instance 1 1).page_size - chunk_offset x86_64 (init_instance 1 1) 4090 6) :=
  ⟨by decide,
   (C4_one_iteration x86_64 always_ok 4090 (fun i => i % 256) 5993 (init_instance 1 1)
      (fresh_host aliasing_guest) 5994 6 (by decide) (by decide) (by decide) (by decide)
      (by decide) (by decide)).2.2.1⟩

/-- C6: in a paravirtualized session without cached table, a call of
`xen_pfn_to_mfn` during which some map call fails returns 0 and leaves the
instance as it was (table still NULL, frame count unchanged); the next call
then starts the construction again with the shared-info mapping. -/
theorem C6_failed_construction_not_cached (P : Platform) (ok : Nat → List Nat → Bool)
    (vmi : vmi_instance) (h : Host) (p : Nat) (hpv : vmi.driver.hvm = 0)
    (ht : vmi.driver.live_pfn_to_mfn_table = none)
    (hfail : (new_calls h (xen_pfn_to_mfn P ok vmi h p).2.2).any is_failed_map = true) :
    (xen_pfn_to_mfn P ok vmi h p).1 = 0 ∧
    (xen_pfn_to_mfn P ok vmi h p).2.1 = vmi ∧
    (xen_pfn_to_mfn P ok vmi h p).2.1.driver.live_pfn_to_mfn_table = none ∧
    (xen_pfn_to_mfn P ok vmi h p).2.1.driver.nr_pfns = vmi.driver.nr_pfns ∧
    ∀ q, ∃ success rest,
      new_calls (xen_pfn_to_mfn P ok vmi h p).2.2
        (xen_pfn_to_mfn P ok (xen_pfn_to_mfn P ok vmi h p).2.1
          (xen_pfn_to_mfn P ok vmi h p).2.2 q).2.2
      = HostCall.map_range prot_t.PROT_READ (shinfo_mfn P vmi) success :: rest := by
  have hvmi : (xen_pfn_to_mfn P ok vmi h p).1 = 0 ∧ (xen_pfn_to_mfn P ok vmi h p).2.1 = vmi := by
    rw [xen_pfn_to_mfn_build P ok vmi h p hpv ht] at hfail ⊢
    split_ifs at hfail ⊢ <;> simp [new_calls, after_calls, is_failed_map] at hfail ⊢
  refine ⟨hvmi.1, hvmi.2, ?_, ?_, ?_⟩
  · rw [hvmi.2]; exact ht
  · rw [hvmi.2]
  · intro q
    rw [hvmi.2, xen_pfn_to_mfn_build P ok vmi _ q hpv ht]
    split_ifs <;> simp [new_calls, after_calls]

/-- Witness for C6: the hypotheses hold on a concrete session. -/
theorem C6_failed_construction_not_cached_witness :
    (new_calls (fresh_host aliasing_guest)
      (xen_pfn_to_mfn x86_64 (all_but 2) (init_instance 0 1)
        (fresh_host aliasing_guest) 0).2.2).any is_failed_map = true ∧
    (xen_pfn_to_mfn x86_64 (all_but 2) (init_instance 0 1) (fresh_host aliasing_guest) 0).1 = 0 :=
  ⟨by decide,
   (C6_failed_construction_not_cached x86_64 (all_but 2) (init_instance 0 1)
      (fresh_host aliasing_guest) 0 (by decide) (by decide) (by decide)).1⟩

/-- C7: in a paravirtualized session, when a call `xen_pfn_to_mfn (p)` succeeds
(the table is cached when it returns), it returned entry `p` of the cached
table, the next call with the same `p` returns the same value, makes no host
call and changes nothing, and so does every later run of calls. -/
theorem C7_cached_table_reused (P : Platform) (ok : Nat → List Nat → Bool) (vmi : vmi_instance)
    (h : Host) (p : Nat) (hpv : vmi.driver.hvm = 0)
    (hsucc : (xen_pfn_to_mfn P ok vmi h p).2.1.driver.live_pfn_to_mfn_table ≠ none) :
    (∃ table, (xen_pfn_to_mfn P ok vmi h p).2.1.driver.live_pfn_to_mfn_table = some table ∧
      (xen_pfn_to_mfn P ok vmi h p).1
        = read_ulong P (xen_pfn_to_mfn P ok vmi h p).2.2.bytes table p) ∧
    xen_pfn_to_mfn P ok (xen_pfn_to_mfn P ok vmi h p).2.1 (xen_pfn_to_mfn P ok vmi h p).2.2 p
      = xen_pfn_to_mfn P ok vmi h p ∧
    new_calls (xen_pfn_to_mfn P ok vmi h p).2.2
      (xen_pfn_to_mfn P ok (xen_pfn_to_mfn P ok vmi h p).2.1
        (xen_pfn_to_mfn P ok vmi h p).2.2 p).2.2 = [] ∧
    ∀ qs : List Nat,
      xen_pfn_to_mfn_each P ok qs (xen_pfn_to_mfn P ok vmi h p).2.1
          (xen_pfn_to_mfn P ok vmi h p).2.2
        = ((xen_pfn_to_mfn P ok vmi h p).2.1, (xen_pfn_to_mfn P ok vmi h p).2.2) := by
  obtain ⟨hpv1, table, ht1, hval⟩ := xen_pfn_to_mfn_success P ok vmi h p hpv hsucc
  have hsecond := xen_pfn_to_mfn_cached P ok (xen_pfn_to_mfn P ok vmi h p).2.1
    (xen_pfn_to_mfn P ok vmi h p).2.2 p table hpv1 ht1
  refine ⟨⟨table, ht1, hval⟩, ?_, ?_, ?_⟩
  · rw [hsecond, ← hval]
  · rw [hsecond]; simp [new_calls]
  · intro qs
    exact xen_pfn_to_mfn_each_cached P ok qs _ _ table hpv1 ht1

/-- Witness for C7: the hypotheses hold on a concrete session. -/
theorem C7_cached_table_reused_witness :
    (init_instance 0 1).driver.hvm = 0 ∧
    (xen_pfn_to_mfn x86_64 always_ok (init_instance 0 1)
      (fresh_host aliasing_guest) 1).2.1.driver.live_pfn_to_mfn_table ≠ none ∧
    new_calls (xen_pfn_to_mfn x86_64 always_ok (init_instance 0 1)
        (fresh_host aliasing_guest) 1).2.2
      (xen_pfn_to_mfn x86_64 always_ok
        (xen_pfn_to_mfn x86_64 always_ok (init_instance 0 1) (fresh_host aliasing_guest) 1).2.1
        (xen_pfn_to_mfn x86_64 always_ok (init_instance 0 1) (fresh_host aliasing_guest) 1).2.2
        1).2.2 = [] :=
  ⟨by decide, by decide,
   (C7_cached_table_reused x86_64 always_ok (init_instance 0 1) (fresh_host aliasing_guest) 1
      (by decide) (by decide)).2.2.1⟩

/-- C8 as stated fails: for a guest that announces `2^64 - 1` frames the sum
`nr_pfns + fpp*fpp - 1` wraps in `unsigned long` and both batch calls ask
for no page at all, where rounding up gives `2^46` and `2^55` pages. -/
theorem C8_counterexample :
    guest_nr_pfns x86_64 (init_instance 0 1) (fresh_host huge_guest) = 2 ^ 64 - 1 ∧
    new_calls (fresh_host huge_guest)
        (xen_pfn_to_mfn x86_64 always_ok (init_instance 0 1) (fresh_host huge_guest) 0).2.2
      = [HostCall.map_range prot_t.PROT_READ 1 true,
         HostCall.map_range prot_t.PROT_READ 0 true,
         HostCall.map_batch prot_t.PROT_READ [] true,
         HostCall.map_batch prot_t.PROT_READ [] true,
         HostCall.munmap [1] 4096, HostCall.munmap [0] 4096, HostCall.munmap [] 4096] ∧
    frame_list_pages x86_64 (2 ^ 64 - 1) ≠ ceil_div (2 ^ 64 - 1) (x86_64.fpp * x86_64.fpp) ∧
    table_pages x86_64 (2 ^ 64 - 1) ≠ ceil_div (2 ^ 64 - 1) x86_64.fpp ∧
    ceil_div (2 ^ 64 - 1) (x86_64.fpp * x86_64.fpp) = 2 ^ 46 ∧
    ceil_div (2 ^ 64 - 1) x86_64.fpp = 2 ^ 55 := by
  decide

/-- C8, amended: in a table construction that gets as far as the batch calls,
with `fpp ≥ 1` and a guest frame count `n` for which `n + fpp*fpp` does not
exceed the range of `unsigned long`, the first batch call asks for
`(n + fpp*fpp - 1)/(fpp*fpp)` pages, which is `n / fpp²` rounded up, and the
second one, when reached, for `(n + fpp - 1)/fpp` pages, which is `n / fpp`
rounded up; for `fpp = 512` and `n = 300000` these are 2 and 586. -/
theorem C8_batch_sizes (P : Platform) (ok : Nat → List Nat → Bool) (vmi : vmi_instance)
    (h : Host) (p : Nat) (hpv : vmi.driver.hvm = 0)
    (ht : vmi.driver.live_pfn_to_mfn_table = none)
    (h1 : ok h.attempts [shinfo_mfn P vmi] = true)
    (h2 : ok (h.attempts + 1) [fll_mfn P vmi h] = true)
    (hfpp : 0 < P.fpp) (hd : P.fpp * P.fpp < 2 ^ P.long_bits)
    (hn : guest_nr_pfns P vmi h + P.fpp * P.fpp ≤ 2 ^ P.long_bits) :
    (∃ frames success rest,
      new_calls h (xen_pfn_to_mfn P ok vmi h p).2.2
        = HostCall.map_range prot_t.PROT_READ (shinfo_mfn P vmi) true
          :: HostCall.map_range prot_t.PROT_READ (fll_mfn P vmi h) true
          :: HostCall.map_batch prot_t.PROT_READ frames success :: rest ∧
      frames.length = frame_list_pages P (guest_nr_pfns P vmi h) ∧
      (success = true → ∃ frames2 success2 rest2,
        rest = HostCall.map_batch prot_t.PROT_READ frames2 success2 :: rest2 ∧
        frames2.length = table_pages P (guest_nr_pfns P vmi h))) ∧
    frame_list_pages P (guest_nr_pfns P vmi h)
      = ceil_div (guest_nr_pfns P vmi h) (P.fpp * P.fpp) ∧
    table_pages P (guest_nr_pfns P vmi h) = ceil_div (guest_nr_pfns P vmi h) P.fpp ∧
    frame_list_pages x86_64 300000 = 2 ∧ table_pages x86_64 300000 = 586 := by
  refine ⟨?_, frame_list_pages_eq P _ hfpp hd hn, table_pages_eq P _ hfpp hd hn,
    by decide, by decide⟩
  rw [xen_pfn_to_mfn_build P ok vmi h p hpv ht]
  rw [if_neg (by simp [h1]), if_neg (by simp [h2])]
  have hlen1 : (frame_list_frames P vmi h).length = frame_list_pages P (guest_nr_pfns P vmi h) :=
    read_frames_length _ _ _ _
  have hlen2 : (table_frames P vmi h).length = table_pages P (guest_nr_pfns P vmi h) :=
    read_frames_length _ _ _ _
  split_ifs with h3 h4
  · exact ⟨_, _, _, by simp [new_calls, after_calls]; exact ⟨rfl, rfl⟩, hlen1, by simp⟩
  · exact ⟨_, _, _, by simp [new_calls, after_calls]; exact ⟨rfl, rfl, rfl⟩, hlen1,
      fun _ => ⟨_, _, _, rfl, hlen2⟩⟩
  · exact ⟨_, _, _, by simp [new_calls, after_calls]; exact ⟨rfl, rfl, rfl⟩, hlen1,
      fun _ => ⟨_, _, _, rfl, hlen2⟩⟩

/-- Witness for C8: the hypotheses hold on a concrete session. -/
theorem C8_batch_sizes_witness :
    (init_instance 0 1).driver.hvm = 0 ∧
    guest_nr_pfns x86_64 (init_instance 0 1) (fresh_host aliasing_guest) + x86_64.fpp * x86_64.fpp
      ≤ 2 ^ x86_64.long_bits ∧
    frame_list_pages x86_64 (guest_nr_pfns x86_64 (init_instance 0 1) (fresh_host aliasing_guest))
      = ceil_div (guest_nr_pfns x86_64 (init_instance 0 1) (fresh_host aliasing_guest))
          (x86_64.fpp * x86_64.fpp) :=
  ⟨by decide, by decide,
   (C8_batch_sizes x86_64 always_ok (init_instance 0 1) (fresh_host aliasing_guest) 0
      (by decide) (by decide) (by decide) (by decide) (by decide) (by decide) (by decide)).2.1⟩

/-- C9: over any sequence of `xen_put_memory` and `xen_pfn_to_mfn` calls,
failing ones included, started when successful maps and releases are in
balance (as at session start), the number of successful map calls stays equal
to the number of release calls plus one for the cached table, if there is
one; and every call of `xen_pfn_to_mfn` releases, in order, exactly the
mappings it obtained, a newly cached table excepted. -/
theorem C9_no_leaked_mappings (P : Platform) (ok : Nat → List Nat → Bool)
    (calls : List DriverCall) (vmi : vmi_instance) (h : Host)
    (hbal : h.log.countP is_successful_map
      = h.log.countP is_munmap + vmi.driver.live_pfn_to_mfn_table.toList.length) :
    (run_calls P ok calls vmi h).2.log.countP is_successful_map
      = (run_calls P ok calls vmi h).2.log.countP is_munmap
        + (run_calls P ok calls vmi h).1.driver.live_pfn_to_mfn_table.toList.length ∧
    ∀ (vmi1 : vmi_instance) (h1 : Host) (pfn : Nat),
      obtained_mappings (new_calls h1 (xen_pfn_to_mfn P ok vmi1 h1 pfn).2.2)
          ++ vmi1.driver.live_pfn_to_mfn_table.toList
        = released_mappings (new_calls h1 (xen_pfn_to_mfn P ok vmi1 h1 pfn).2.2)
          ++ (xen_pfn_to_mfn P ok vmi1 h1 pfn).2.1.driver.live_pfn_to_mfn_table.toList :=
  ⟨run_calls_balance P ok calls vmi h hbal, fun vmi1 h1 pfn =>
    xen_pfn_to_mfn_releases P ok vmi1 h1 pfn⟩

/-- Witness for C9: the hypotheses hold on a concrete session. -/
theorem C9_no_leaked_mappings_witness :
    (fresh_host aliasing_guest).log.countP is_successful_map
      = (fresh_host aliasing_guest).log.countP is_munmap
        + (init_instance 0 1).driver.live_pfn_to_mfn_table.toList.length ∧
    (run_calls x86_64 (all_but 3)
        [DriverCall.pfn_to_mfn 0, DriverCall.put_memory 4090 10 (fun _ => 1)]
        (init_instance 0 1) (fresh_host aliasing_guest)).2.log.countP is_successful_map
      = (run_calls x86_64 (all_but 3)
          [DriverCall.pfn_to_mfn 0, DriverCall.put_memory 4090 10 (fun _ => 1)]
          (init_instance 0 1) (fresh_host aliasing_guest)).2.log.countP is_munmap
        + (run_calls x86_64 (all_but 3)
            [DriverCall.pfn_to_mfn 0, DriverCall.put_memory 4090 10 (fun _ => 1)]
            (init_instance 0 1)
            (fresh_host aliasing_guest)).1.driver.live_pfn_to_mfn_table.toList.length :=
  ⟨by decide,
   (C9_no_leaked_mappings x86_64 (all_but 3)
      [DriverCall.pfn_to_mfn 0, DriverCall.put_memory 4090 10 (fun _ => 1)]
      (init_instance 0 1) (fresh_host aliasing_guest) (by decide)).1⟩

/-- C10: a paravirtualized session whose shared-info frame (frame 1) cannot be
mapped: the translation inside `xen_put_memory` fails and returns 0, and the
write goes on with machine frame 0: it maps frame 0 read-write, copies the
byte there and returns `VMI_SUCCESS`, with no table cached. -/
theorem C10_failed_translation_writes_frame_zero :
    (xen_pfn_to_mfn x86_64 (all_but 1) (init_instance 0 1) (fresh_host aliasing_guest) 5).1 = 0 ∧
    (xen_put_memory x86_64 (all_but 1) (init_instance 0 1) (fresh_host aliasing_guest)
      0x5000 1 (fun _ => 170)).1 = some status_t.VMI_SUCCESS ∧
    (xen_put_memory x86_64 (all_but 1) (init_instance 0 1) (fresh_host aliasing_guest)
      0x5000 1 (fun _ => 170)).2.2.log
      = [HostCall.map_range prot_t.PROT_READ 1 false,
         HostCall.map_range prot_t.PROT_WRITE 0 true,
         HostCall.memcpy 0 0 0 1,
         HostCall.munmap [0] 4096] ∧
    (fresh_host aliasing_guest).bytes 0 0 = 0 ∧
    (xen_put_memory x86_64 (all_but 1) (init_instance 0 1) (fresh_host aliasing_guest)
      0x5000 1 (fun _ => 170)).2.2.bytes 0 0 = 170 ∧
    (xen_put_memory x86_64 (all_but 1) (init_instance 0 1) (fresh_host aliasing_guest)
      0x5000 1 (fun _ => 170)).2.1.driver.live_pfn_to_mfn_table = none := by
  decide

end Xen
